import Mathlib

/-!
Shallow embedding of the "Tight Margins" carousel-slide rendering engine
(`src/src/App.jsx`, the 14-template variant) and proofs about it.

Text measurement (`ctx.measureText`) is abstracted by a per-character width
table `cw : Char → ℕ`; the measured width of a string is the sum of its
characters' widths.  JS string primitives used by the source
(`split` with a one-character separator, `trim`, lowercasing, `replace`
deleting a character set) are translated explicitly below.
-/
namespace TightMargins

/-- Measured width of a string: sum of per-character widths.  This is the
abstraction of `ctx.measureText(s).width` for the current font. -/
def measureW (cw : Char → ℕ) (s : String) : ℕ :=
  (s.data.map cw).sum

/-- Whitespace test used by JS `String.prototype.trim`. -/
def isWS (c : Char) : Bool := c.isWhitespace

/-- JS `String.prototype.trim`: strip leading and trailing whitespace. -/
def jsTrim (s : String) : String :=
  ⟨((s.data.dropWhile isWS).reverse.dropWhile isWS).reverse⟩

/-- JS `String.prototype.split` restricted to a one-character separator,
on the underlying character list.  `split` never returns an empty list and
separator characters never appear inside the returned pieces. -/
def splitChar (c : Char) : List Char → List (List Char)
  | [] => [[]]
  | a :: rest =>
    match splitChar c rest with
    | [] => [[]]
    | p :: ps => if a = c then [] :: p :: ps else (a :: p) :: ps

/-- JS `s.split(c)` for a one-character separator `c`. -/
def jsSplit (c : Char) (s : String) : List String :=
  (splitChar c s.data).map fun l => ⟨l⟩

/-- The word-accumulation loop of `wrapText` (and of the identical loop in
`drawTextWithEmphasis` and `punchline`): greedily accumulate words into
`line`; flush when adding the next word would exceed `maxWidth` and the
line is non-empty; after the last word push the trimmed line. -/
def wrapParaLoop (cw : Char → ℕ) (maxWidth : ℕ) :
    List String → String → List String
  | [], line => [jsTrim line]
  | w :: ws, line =>
    let test := line ++ w ++ " "
    if maxWidth < measureW cw test ∧ line ≠ "" then
      jsTrim line :: wrapParaLoop cw maxWidth ws (w ++ " ")
    else
      wrapParaLoop cw maxWidth ws test

/-- The line list produced by `wrapText` for non-empty input: split into
paragraphs at `'\n'`; an all-whitespace paragraph contributes one blank
spacer line; other paragraphs are wrapped greedily. -/
def wrapLines (cw : Char → ℕ) (maxWidth : ℕ) (text : String) : List String :=
  (jsSplit '\n' text).flatMap fun p =>
    if jsTrim p = "" then [""]
    else wrapParaLoop cw maxWidth (jsSplit ' ' p) ""

/-- `wrapText`: for falsy (empty) input, zero lines; otherwise the wrapped
line list.  The JS function returns `lines.length` and draws each non-blank
line; we return the lines themselves, so the JS return value is
`(wrapText …).length`. -/
def wrapText (cw : Char → ℕ) (maxWidth : ℕ) (text : String) : List String :=
  if text = "" then [] else wrapLines cw maxWidth text

/-- The lines `wrapText` actually draws, with their 0-based line index `i`
(each is drawn at `y + i * lineHeight`): exactly the non-blank lines. -/
def wrapDrawn (cw : Char → ℕ) (maxWidth : ℕ) (text : String) :
    List (ℕ × String) :=
  ((wrapText cw maxWidth text).enum).filter fun p => p.2 ≠ ""

/-! `drawTextWithEmphasis`: emphasis matching and underline geometry.
The bold font variant used for emphasized words has its own width table
`cwB` (the source switches `ctx.font` to a 700-weight variant before
measuring and drawing an emphasized word). -/
/-- JS `String.prototype.toLowerCase` (per-character lowercasing). -/
def jsLower (s : String) : String := ⟨s.data.map Char.toLower⟩

/-- Does `sub` occur at the start of `l`? -/
def startsWithList : List Char → List Char → Bool
  | [], _ => true
  | _ :: _, [] => false
  | a :: as, b :: bs => a = b && startsWithList as bs

/-- Does `sub` occur anywhere inside `l`?  (JS `String.prototype.includes`
on character lists.) -/
def hasSubList (sub : List Char) : List Char → Bool
  | [] => startsWithList sub []
  | a :: rest => startsWithList sub (a :: rest) || hasSubList sub rest

/-- JS `s.includes(sub)`. -/
def jsIncludes (s sub : String) : Bool := hasSubList sub.data s.data

/-- The characters deleted by the source's
`w.toLowerCase().replace(/[.,!?;:'"]/g, "")`. -/
def punctChars : List Char :=
  ['.', ',', '!', '?', ';', ':', Char.ofNat 39, Char.ofNat 34]

/-- The source's word normalisation before emphasis matching: lowercase,
then delete every occurrence of the punctuation characters. -/
def cleanWord (w : String) : String :=
  ⟨(jsLower w).data.filter fun c => !(c ∈ punctChars : Bool)⟩

/-- A word as placed by the emphasis walk of `drawTextWithEmphasis`:
its text, left x, whether it was emphasized (bold + underline), the
measured width used to advance the cursor, and the underline's horizontal
extent (drawn at `lineY + 4`, i.e. 4px below the baseline) when
emphasized. -/
structure PlacedWord where
  word : String
  x : ℕ
  emph : Bool
  w : ℕ
  underline : Option (ℕ × ℕ)
deriving DecidableEq

/-- The per-line word walk of `drawTextWithEmphasis`: for each word,
decide emphasis by membership of the cleaned word in the phrase's
sub-words, measure with the bold table when emphasized, draw the
underline spanning the word's measured width, and advance by the word
width plus one measured space width between words. -/
def walkWords (cw cwB : Char → ℕ) (emphW : List String) (spW : ℕ) :
    List String → ℕ → List PlacedWord
  | [], _ => []
  | wd :: rest, cx =>
    let isE := decide (cleanWord wd ∈ emphW)
    let ww := if isE then measureW cwB wd else measureW cw wd
    { word := wd, x := cx, emph := isE, w := ww,
      underline := if isE then some (cx, cx + ww) else none } ::
      walkWords cw cwB emphW spW rest (cx + ww + if rest = [] then 0 else spW)

/-- `drawTextWithEmphasis` at the word-placement level: empty text draws
nothing; an empty phrase or a phrase that is not a case-insensitive
substring of the text falls back to plain `wrapText` drawing (each
non-blank line drawn as one unemphasized run); otherwise each non-blank
wrapped line is re-walked word by word. -/
def drawEmphPlaced (cw cwB : Char → ℕ) (text emph : String) (W x : ℕ) :
    List (ℕ × List PlacedWord) :=
  if text = "" then []
  else if emph ≠ "" ∧ jsIncludes (jsLower text) (jsLower emph) = true then
    ((wrapLines cw W text).enum.filter fun p => p.2 ≠ "").map fun p =>
      (p.1, walkWords cw cwB (jsSplit ' ' (jsLower emph)) (measureW cw " ")
        (jsSplit ' ' p.2) x)
  else
    ((wrapLines cw W text).enum.filter fun p => p.2 ≠ "").map fun p =>
      (p.1, [⟨p.2, x, false, measureW cw p.2, none⟩])

/-- Modelled from the claim's words, for comparison with the source's
`cleanWord`: strip only leading and trailing punctuation characters from
the lowercased word. -/
def edgeStrip (w : String) : String :=
  ⟨(((jsLower w).data.dropWhile (· ∈ punctChars)).reverse.dropWhile
      (· ∈ punctChars)).reverse⟩

/-! The editor's slide list and its operations (`initCustom`,
`initFromSequence`, `addSlide`, `removeSlide`, `moveSlide`,
`changeTemplate`) and the export gate.  Field values (JS object `data`)
are modelled as association lists. -/
/-- A slide as held in editor state. -/
structure Slide where
  template : String
  locked : Bool
  note : String
  data : List (String × String)
deriving DecidableEq

/-- A sequence-blueprint skeleton entry (`{template, locked, note}`;
`locked` is absent in the source where false: `s.locked || false`). -/
structure SlideSkeleton where
  template : String
  locked : Bool
  note : String
deriving DecidableEq

/-- The `argument` blueprint's slide skeletons. -/
def seqArgument : List SlideSkeleton :=
  [⟨"cover", true, "Hook — provocative title"⟩,
   ⟨"single", false, "Setup — establish the context"⟩,
   ⟨"single", false, "Complication — introduce the problem"⟩,
   ⟨"framework", false, "Model — present the framework"⟩,
   ⟨"numbered_list", false, "Breakdown — key components"⟩,
   ⟨"comparison", false, "Contrast — the old vs new way"⟩,
   ⟨"quote", false, "Validate — expert backing"⟩,
   ⟨"punchline", false, "Payoff — the key insight"⟩,
   ⟨"data", false, "Proof — validating data"⟩,
   ⟨"cta", true, "Exit — subscribe"⟩]

/-- The `hottake` blueprint's slide skeletons. -/
def seqHottake : List SlideSkeleton :=
  [⟨"cover", true, "Hook — bold claim"⟩,
   ⟨"data", false, "Shock — the credible number"⟩,
   ⟨"single", false, "Context — why it matters"⟩,
   ⟨"checklist", false, "Reality check — do vs don\x27t"⟩,
   ⟨"punchline", false, "Resolution — the real insight"⟩,
   ⟨"quote", false, "Close — a voice that agrees"⟩,
   ⟨"cta", true, "Exit — subscribe"⟩]

/-- The `casestudy` blueprint's slide skeletons. -/
def seqCasestudy : List SlideSkeleton :=
  [⟨"cover", true, "Hook — the decision"⟩,
   ⟨"single", false, "Situation — what was at stake"⟩,
   ⟨"data", false, "Scale — tangible stakes"⟩,
   ⟨"section_divider", false, "Pivot — entering analysis"⟩,
   ⟨"two_up", false, "Options — two choices compared"⟩,
   ⟨"comparison", false, "Tradeoffs — side by side"⟩,
   ⟨"single", false, "Decision — what was chosen"⟩,
   ⟨"punchline", false, "Outcome — what happened"⟩,
   ⟨"quote", false, "Reflection — the lesson"⟩,
   ⟨"cta", true, "Exit — subscribe"⟩]

/-- The `listicle` blueprint's slide skeletons. -/
def seqListicle : List SlideSkeleton :=
  [⟨"cover", true, "Hook — the list promise"⟩,
   ⟨"single", false, "Setup — why this list matters"⟩,
   ⟨"numbered_list", false, "List part 1 — first items"⟩,
   ⟨"numbered_list", false, "List part 2 — more items"⟩,
   ⟨"three_up", false, "Summary — three takeaways"⟩,
   ⟨"data", false, "Anchor — a proof point"⟩,
   ⟨"punchline", false, "Close — the one-liner"⟩,
   ⟨"cta", true, "Exit — subscribe"⟩]

/-- The `playbook` blueprint's slide skeletons. -/
def seqPlaybook : List SlideSkeleton :=
  [⟨"cover", true, "Hook — the playbook title"⟩,
   ⟨"single", false, "Overview — what this covers"⟩,
   ⟨"section_divider", false, "Part 1 — first section"⟩,
   ⟨"numbered_list", false, "Steps — the process"⟩,
   ⟨"two_up", false, "Key contrast — a critical choice"⟩,
   ⟨"section_divider", false, "Part 2 — second section"⟩,
   ⟨"checklist", false, "Standards — do vs don\x27t"⟩,
   ⟨"three_up", false, "Principles — three pillars"⟩,
   ⟨"quote", false, "Authority — expert voice"⟩,
   ⟨"data", false, "Results — proof it works"⟩,
   ⟨"punchline", false, "Payoff — the closing insight"⟩,
   ⟨"cta", true, "Exit — subscribe"⟩]

/-- The sequence-blueprint registry (key, skeletons). -/
def SEQUENCES : List (String × List SlideSkeleton) :=
  [("argument", seqArgument), ("hottake", seqHottake),
   ("casestudy", seqCasestudy), ("listicle", seqListicle),
   ("playbook", seqPlaybook)]

/-- `initFromSequence`: each skeleton becomes a slide with an empty
field-value record. -/
def initFromSequence (sk : List SlideSkeleton) : List Slide :=
  sk.map fun s => ⟨s.template, s.locked, s.note, []⟩

/-- `initCustom`: the minimal custom skeleton. -/
def initCustom : List Slide :=
  [⟨"cover", true, "Cover (always first)", []⟩,
   ⟨"single", false, "Your content", []⟩,
   ⟨"cta", true, "CTA (always last)", []⟩]

/-- `changeTemplate`: `next[idx] = {...next[idx], template, data: {}}`
for an in-range index (the editor only calls it on existing slides). -/
def changeTemplate (slides : List Slide) (idx : ℕ) (newT : String) :
    List Slide :=
  match slides.get? idx with
  | some s => slides.set idx { s with template := newT, data := [] }
  | none => slides

/-- `addSlide`: no-op at 12 slides; otherwise splice a fresh unlocked
`single` slide in after `afterIdx`. -/
def addSlide (slides : List Slide) (afterIdx : ℕ) : List Slide :=
  if 12 ≤ slides.length then slides
  else slides.take (afterIdx + 1) ++
    ⟨"single", false, "", []⟩ :: slides.drop (afterIdx + 1)

/-- `removeSlide`: no-op at 6 slides or on a locked slide; otherwise
splice the slide out. -/
def removeSlide (slides : List Slide) (idx : ℕ) : List Slide :=
  if slides.length ≤ 6 then slides
  else
    match slides.get? idx with
    | none => slides
    | some s =>
      if s.locked then slides
      else slides.take idx ++ slides.drop (idx + 1)

/-- `moveSlide`: refuse targets at or beyond either end (`targetIdx <= 0`
or `targetIdx >= length - 1`), refuse locked slides, otherwise swap the
slide with the one at `targetIdx = idx + dir`. -/
def moveSlide (slides : List Slide) (idx : ℕ) (dir : ℤ) : List Slide :=
  if (idx : ℤ) + dir ≤ 0 ∨ (slides.length : ℤ) - 1 ≤ (idx : ℤ) + dir then
    slides
  else
    match slides.get? idx with
    | none => slides
    | some si =>
      if si.locked then slides
      else
        match slides.get? ((idx : ℤ) + dir).toNat with
        | none => slides
        | some st => (slides.set idx st).set ((idx : ℤ) + dir).toNat si

/-- An editor operation on the slide list. -/
inductive EditorOp where
  | add (afterIdx : ℕ)
  | remove (idx : ℕ)
  | move (idx : ℕ) (dir : ℤ)
  | change (idx : ℕ) (t : String)
deriving DecidableEq

def applyOp (s : List Slide) : EditorOp → List Slide
  | .add i => addSlide s i
  | .remove i => removeSlide s i
  | .move i d => moveSlide s i d
  | .change i t => changeTemplate s i t

def applyOps (s : List Slide) : List EditorOp → List Slide
  | [] => s
  | op :: ops => applyOps (applyOp s op) ops

/-- The side conditions the editor UI enforces before invoking an
operation: `addSlide` is only ever called with `afterIdx` at most
`length - 2` (the add buttons insert before the last slide), and
`changeTemplate` only on an unlocked slide (the template selector is not
rendered for locked slides).  `removeSlide` and `moveSlide` need nothing
beyond their internal guards. -/
def validOp (s : List Slide) : EditorOp → Bool
  | .add afterIdx => afterIdx + 2 ≤ s.length
  | .remove _ => true
  | .move _ _ => true
  | .change idx _ =>
    match s.get? idx with
    | some sl => !sl.locked
    | none => false

def validSeq (s : List Slide) : List EditorOp → Bool
  | [] => true
  | op :: ops => validOp s op && validSeq (applyOp s op) ops

/-- The endpoint invariant: the list is a locked cover slide, then
unlocked interior slides, then a locked cta slide. -/
def EndsOk (l : List Slide) : Prop :=
  ∃ f m t, l = f :: m ++ [t] ∧
    f.template = "cover" ∧ f.locked = true ∧
    t.template = "cta" ∧ t.locked = true ∧
    ∀ s ∈ m, s.locked = false

/-- Executable version of `EndsOk`. -/
def endsOkB (l : List Slide) : Bool :=
  match l with
  | [] => false
  | f :: rest =>
    match rest.getLast? with
    | none => false
    | some t =>
      f.template == "cover" && f.locked && t.template == "cta" &&
        t.locked && rest.dropLast.all fun s => !s.locked

/-- The initial carousels named by the claim: the custom skeleton and the
five sequence blueprints. -/
def initialCarousels : List (List Slide) :=
  initCustom :: SEQUENCES.map fun p => initFromSequence p.2

/-- The export button's gate (the caller of the engine): disabled while
an export runs or when the slide count is outside `[6, 12]`. -/
def exportEnabled (exporting : Bool) (len : ℕ) : Bool :=
  !(exporting || decide (len < 6) || decide (12 < len))

/-! The framework renderer's diagram layouts.  Canvas constants:
`slide = 1080`, `contentStart = 176`, `contentEnd = 1016`, so the content
width is 840 and the content midline is at `x = 596`.  The diagram area
runs from `areaTop = 230` down to `slide - 120` when a caption is present
and `slide - 80` otherwise. -/
/-- Vertical center of the diagram area (`cy` in the source). -/
def flowCy (hasCaption : Bool) : ℚ :=
  230 + ((if hasCaption then (960 : ℚ) else 1000) - 230) / 2

/-- Measured box width for each flow label: text width plus `2 * pad`
with `pad = 28`. -/
def flowBoxWidths (cw : Char → ℕ) (labels : List String) : List ℚ :=
  labels.map fun l => (measureW cw l : ℚ) + 28 * 2

/-- Total width of a row of (label, boxWidth) items: box widths plus one
`arrowW = 36` gap between consecutive boxes. -/
def rowTot (items : List (String × ℚ)) : ℚ :=
  (items.map Prod.snd).sum + ((items.length : ℚ) - 1) * 36

/-- A flow box as drawn: left edge, top edge, width, label (all boxes
are `boxH = 64` tall). -/
structure FlowBox where
  x : ℚ
  y : ℚ
  w : ℚ
  label : String

/-- A flow arrow as drawn: start x (`ax = curX + bw + 4`) and vertical
center of its row. -/
structure FlowArrow where
  x : ℚ
  y : ℚ

/-- The box/arrow placement loop shared by both flow branches: place each
box at the running cursor, emit an arrow after every box but the last,
and advance the cursor by `bw + arrowW`.  `rowY` is the box top edge; the
arrow sits at the vertical center `rowY + 32`. -/
def flowPlaceRow : List (String × ℚ) → ℚ → ℚ → List FlowBox × List FlowArrow
  | [], _, _ => ([], [])
  | (l, w) :: rest, curX, rowY =>
    let r := flowPlaceRow rest (curX + w + 36) rowY
    (⟨curX, rowY, w, l⟩ :: r.1,
      if rest = [] then r.2 else ⟨curX + w + 4, rowY + 32⟩ :: r.2)

/-- The flow diagram layout: try a single centered row; when the total
width exceeds the content width, split after `ceil(n/2)` labels into two
rows, each independently centered, the top row at `cy - 50` and the
bottom row `boxH + 40 = 104` lower.  (`rowTot items` equals the source's
`boxWidths.sum + (labels.length - 1) * arrowW` since `items` pairs each
label with its width.) -/
def frameworkFlowRows (cw : Char → ℕ) (labels : List String)
    (hasCaption : Bool) : List (List FlowBox × List FlowArrow) :=
  let items := labels.zip (flowBoxWidths cw labels)
  let cy := flowCy hasCaption
  if rowTot items ≤ 840 then
    [flowPlaceRow items (596 - rowTot items / 2) (cy - 32)]
  else
    let half := (labels.length + 1) / 2
    [flowPlaceRow (items.take half)
        (596 - rowTot (items.take half) / 2) (cy - 50),
     flowPlaceRow (items.drop half)
        (596 - rowTot (items.drop half) / 2) (cy - 50 + 104)]

/-- What it means for `(boxes, ars)` to lay out `items` as one row
starting at `startX` with top edge `rowY`: labels and widths are the
items in order; every box sits on the row; box `i`'s left edge is
`startX` plus the widths and arrow gaps of the boxes before it; there is
an arrow after every box but the last, starting 4 px right of its box at
the row's vertical center. -/
def RowOk (boxes : List FlowBox) (ars : List FlowArrow)
    (items : List (String × ℚ)) (startX rowY : ℚ) : Prop :=
  boxes.map (fun b => (b.label, b.w)) = items ∧
  (∀ b ∈ boxes, b.y = rowY) ∧
  (∀ i b, boxes.get? i = some b →
    b.x = startX + ((items.take i).map Prod.snd).sum + 36 * (i : ℚ)) ∧
  ars.length = boxes.length - 1 ∧
  (∀ i a, ars.get? i = some a →
    ∃ b, boxes.get? i = some b ∧
      a.x = b.x + b.w + 4 ∧ a.y = rowY + 32)

/-! The cycle diagram.  `Math.cos`/`Math.sin` are abstracted as function
parameters `cosf`/`sinf` (the layout applies them to the source's angle
expression `-π/2 + (i/n)·2π`). -/
/-- Ring radius: `min(contentW, areaH) * 0.32`. -/
def cycleRingRadius (hasCaption : Bool) : ℚ :=
  min 840 ((if hasCaption then (960 : ℚ) else 1000) - 230) * (8 / 25)

/-- Shared node radius: `max(36, maxLabelW / 2 + 16)` where `maxLabelW`
is the widest label's measured width (`Math.max` over the labels; the
source only evaluates it for a non-empty label list). -/
def cycleNodeRadius (cw : Char → ℕ) (labels : List String) : ℚ :=
  max 36 ((labels.map fun l => (measureW cw l : ℚ)).foldr max 0 / 2 + 16)

/-- A cycle node as drawn: center coordinates (in the coordinate field
`K`, instantiated at `ℝ`) and circle radius. -/
structure CycleNode (K : Type) where
  x : K
  y : K
  r : ℚ

/-- The cycle layout over a coordinate field `K` (instantiated at `ℝ`
with `piv = π`, `cosf = Real.cos`, `sinf = Real.sin`): node `i` of `n`
sits on the ring at angle `-piv/2 + (i/n)·(piv·2)` from the diagram
center `(596, cy)`; every node's circle has the shared radius
`cycleNodeRadius`. -/
def cycleNodes (K : Type) [Field K] (cw : Char → ℕ)
    (labels : List String) (hasCaption : Bool) (piv : K)
    (cosf sinf : K → K) : List (CycleNode K) :=
  let n := labels.length
  (List.range n).map fun i =>
    let angle : K := -(piv / 2) + ((i : ℕ) : K) / ((n : ℕ) : K) * (piv * 2)
    ⟨(596 : K) + cosf angle * ((cycleRingRadius hasCaption : ℚ) : K),
     ((flowCy hasCaption : ℚ) : K) +
       sinf angle * ((cycleRingRadius hasCaption : ℚ) : K),
     cycleNodeRadius cw labels⟩

section

variable (K : Type) [Field K]

/-! # Canvas-level embedding of the renderers

Each renderer is translated into a pure function emitting the list of
paint operations it performs and the context state it leaves behind.
Every operation records the drawing-state components that determine its
raster effect (font, fill/stroke style, line width, alignment, alpha,
dash, caps/joins, letter spacing) at the moment it is issued.  The
renderers assign `font`/`fillStyle`/`strokeStyle`/`lineWidth` before
every use, so those components appear as the literal values from the
source; the components a renderer may inherit without assigning
(alignment, alpha, dash, caps, joins, letter spacing — all of which
every renderer leaves at their entry values on exit, via `save`/
`restore` or explicit resets) are taken from the entry state's
projection `AProj`.  Text measurement depends on the current font:
`cwf font` is the per-character width table of that font. -/
/-- The drawing-state components of a canvas 2D context that the
renderers touch. -/
structure Ctx where
  font : String
  fillStyle : String
  strokeStyle : String
  lineWidth : ℚ
  textAlign : String
  globalAlpha : ℚ
  lineDash : List ℚ
  lineCap : String
  lineJoin : String
  letterSpacing : String

/-- A fresh context's state (canvas defaults). -/
def defaultCtx : Ctx :=
  ⟨"10px sans-serif", "#000000", "#000000", 1, "start", 1, [],
   "butt", "miter", "0px"⟩

/-- The components a renderer can inherit without assigning first. -/
structure AProj where
  align : String
  alpha : ℚ
  dash : List ℚ
  cap : String
  join : String
  lspace : String

def Ctx.aproj (c : Ctx) : AProj :=
  ⟨c.textAlign, c.globalAlpha, c.lineDash, c.lineCap, c.lineJoin,
   c.letterSpacing⟩

def defaultAProj : AProj := ⟨"start", 1, [], "butt", "miter", "0px"⟩

/-- A path segment (`moveTo`/`lineTo`/`arc`/`closePath`). -/
inductive Seg (K : Type) where
  | move (x y : K)
  | line (x y : K)
  | arc (x y r a0 a1 : K)
  | close

/-- A paint operation with the state that determines its effect. -/
inductive Op (K : Type) where
  | fillRect (x y w h : K) (style : String) (alpha : ℚ)
  | strokeRect (x y w h : K) (style : String) (lw alpha : ℚ)
      (cap join : String) (dash : List ℚ)
  | text (s : String) (x y : K) (font style align : String) (alpha : ℚ)
      (lspace : String)
  | pathStroke (segs : List (Seg K)) (style : String) (lw alpha : ℚ)
      (cap join : String) (dash : List ℚ)
  | pathFill (segs : List (Seg K)) (style : String) (alpha : ℚ)
  | clear (x y w h : K)

/-- Design-system color constants. -/
def paperC : String := "#F0EDEA"

def inkC : String := "#2A2A2A"

def redC : String := "#C83232"

def darkC : String := "#333333"

def greyC : String := "#D0CCC8"

def calloutC : String := "#555555"

/-- `drawRuledLines`: horizontal guides every 32 px from `y = 64` to the
bottom edge, grey, width 0.5, alpha 0.3 (inside save/restore). -/
def drawRuledLinesOps (a : AProj) : List (Op K) :=
  (List.range 32).map fun k =>
    .pathStroke [.move 0 (64 + 32 * (k : K)), .line 1080 (64 + 32 * (k : K))]
      greyC (1 / 2) (3 / 10) a.cap a.join a.dash

/-- `drawMarginLine`: the vertical red accent line (inside
save/restore). -/
def drawMarginLineOps (a : AProj) (x : K) (opacity : ℚ) : List (Op K) :=
  [.pathStroke [.move x 0, .line x 1080] redC 2 opacity a.cap a.join a.dash]

/-- Zero-padded two-digit slide number, `String(n).padStart(2, "0")`. -/
def pad2 (n : ℕ) : String :=
  let s := toString n
  if s.length < 2 then "0" ++ s else s

/-- The shared slide-number block: drawn only when the caller passes a
truthy number (non-null, non-zero). -/
def numberOps (a : AProj) (num : Option ℕ) : List (Op K) :=
  match num with
  | none => []
  | some n =>
    if n = 0 then []
    else [.text (pad2 n) 64 80 "400 20px \x27JetBrains Mono\x27, monospace"
      greyC a.align a.alpha a.lspace]

/-- Field lookup with `||`-fallback: JS `data.key || fb` (absent and
empty string are falsy). -/
def Data : Type := String → Option String

def dget (d : Data) (k fb : String) : String :=
  match d k with
  | none => fb
  | some s => if s = "" then fb else s

/-- JS truthiness of `data.key`. -/
def dtruthy (d : Data) (k : String) : Bool :=
  match d k with
  | none => false
  | some s => !(s == "")

/-- `wrapText` as paint operations: each non-blank wrapped line drawn at
`(x, y + i * lineHeight)` in the given font and fill. -/
def wrapTextOps (cwf : String → Char → ℕ) (a : AProj)
    (font fill : String) (text : String) (x y : K)
    (maxWidth lineHeight : ℕ) : List (Op K) :=
  (wrapDrawn (cwf font) maxWidth text).map fun p =>
    .text p.2 x (y + (p.1 : K) * (lineHeight : K)) font fill
      a.align a.alpha a.lspace

/-- The line count `wrapText` returns to its caller. -/
def wrapCount (cwf : String → Char → ℕ) (font : String) (text : String)
    (maxWidth : ℕ) : ℕ :=
  (wrapText (cwf font) maxWidth text).length

/-- First occurrence of a digit followed by `00` replaced by `700`
(JS `font.replace(/\d00/, "700")`). -/
def replaceD00 : List Char → List Char
  | a :: b :: c :: rest =>
    if a.isDigit ∧ b = '0' ∧ c = '0' then '7' :: '0' :: '0' :: rest
    else a :: replaceD00 (b :: c :: rest)
  | l => l

/-- The bold font variant used for emphasized words. -/
def boldifyFont (f : String) : String :=
  let b : String := ⟨replaceD00 f.data⟩
  if jsIncludes b "700" then b else "bold " ++ f

/-- The per-word walk of `drawTextWithEmphasis` on one line: emphasized
words are drawn in the bold variant with ink fill and a red underline
from the word's left edge to its bold-measured right edge at 4 px below
the baseline; others in the caller's font/fill.  The cursor advances by
the drawn word's measured width, plus one measured space between
words. -/
def emphWalkOps (a : AProj) (font fill boldFont emphColor : String)
    (cwN cwB : Char → ℕ) (emphW : List String) (spW : ℕ) (ly : K) :
    List String → K → List (Op K)
  | [], _ => []
  | wd :: rest, cx =>
    if cleanWord wd ∈ emphW then
      Op.text wd cx ly boldFont inkC a.align a.alpha a.lspace ::
      Op.pathStroke [.move cx (ly + 4),
          .line (cx + (measureW cwB wd : K)) (ly + 4)]
        emphColor 2 a.alpha a.cap a.join a.dash ::
      emphWalkOps a font fill boldFont emphColor cwN cwB emphW spW ly rest
        (cx + (measureW cwB wd : K) +
          (if rest = [] then 0 else (spW : K)))
    else
      Op.text wd cx ly font fill a.align a.alpha a.lspace ::
      emphWalkOps a font fill boldFont emphColor cwN cwB emphW spW ly rest
        (cx + (measureW cwN wd : K) +
          (if rest = [] then 0 else (spW : K)))

/-- `drawTextWithEmphasis` as paint operations. -/
def drawTextWithEmphasisOps (cwf : String → Char → ℕ) (a : AProj)
    (font fill : String) (text emph : String) (x y : K)
    (maxWidth lineHeight : ℕ) (emphColor : String) : List (Op K) :=
  if text = "" then []
  else if emph = "" ∨ jsIncludes (jsLower text) (jsLower emph) = false then
    wrapTextOps K cwf a font fill text x y maxWidth lineHeight
  else
    ((wrapLines (cwf font) maxWidth text).enum).flatMap fun p =>
      if p.2 = "" then []
      else
        emphWalkOps K a font fill (boldifyFont font) emphColor (cwf font)
          (cwf (boldifyFont font)) (jsSplit ' ' (jsLower emph))
          (measureW (cwf font) " ") (y + (p.1 : K) * (lineHeight : K))
          (jsSplit ' ' p.2) x

/-- The line count `drawTextWithEmphasis` returns (same as
`wrapText`). -/
def drawTextWithEmphasisCount (cwf : String → Char → ℕ) (font : String)
    (text : String) (maxWidth : ℕ) : ℕ :=
  (wrapText (cwf font) maxWidth text).length

/-- The `punchline` per-word color walk on one line (only in emphasis
mode): each word is filled red when matched, ink otherwise, no underline
and no font change; the assignment to `fillStyle` persists, so the walk
also returns the fill style in effect after the last word. -/
def punchWalkOps (a : AProj) (font : String) (cw : Char → ℕ)
    (emphW : List String) (spW : ℕ) (ly : K) :
    List String → K → String → List (Op K) × String
  | [], _, fill => ([], fill)
  | wd :: rest, cx, _ =>
    let fill := if cleanWord wd ∈ emphW then redC else inkC
    let r := punchWalkOps a font cw emphW spW ly rest
      (cx + (measureW cw wd : K) + (if rest = [] then 0 else (spW : K)))
      fill
    (Op.text wd cx ly font fill a.align a.alpha a.lspace :: r.1, r.2)

/-- The `punchline` line loop: in emphasis mode each line is walked word
by word (threading the fill style); otherwise each line is drawn
whole. -/
def punchLinesOps (a : AProj) (font : String) (cw : Char → ℕ)
    (emphW : List String) (spW : ℕ) (startY : K) :
    List (ℕ × String) → String → List (Op K) × String
  | [], fill => ([], fill)
  | (i, l) :: rest, fill =>
    if emphW ≠ [] then
      let r1 := punchWalkOps K a font cw emphW spW (startY + (i : K) * 84)
        (jsSplit ' ' l) 176 fill
      let r2 := punchLinesOps a font cw emphW spW startY rest r1.2
      (r1.1 ++ r2.1, r2.2)
    else
      let r2 := punchLinesOps a font cw emphW spW startY rest fill
      (Op.text l 176 (startY + (i : K) * 84) font fill a.align a.alpha
        a.lspace :: r2.1, r2.2)

/-- JS `String.prototype.toUpperCase` (per-character uppercasing). -/
def jsUpper (s : String) : String := ⟨s.data.map Char.toUpper⟩

/-- `cover`: three vertical bands (the full accent line at the first
band boundary), brand mark, wrapped title, accent rule below the title
(its y depends on the title's line count), wrapped subtitle, footer. -/
def coverOps (cwf : String → Char → ℕ) (d : Data) (a : AProj) : List (Op K) :=
  let titleFont := "700 72px \x27Inter Tight\x27, sans-serif"
  let title := dget d "title" "Your Title Here"
  let titleLines := wrapCount cwf titleFont title 472
  let ruleY : K := 420 + (titleLines : K) * 80 + 16
  [Op.fillRect 0 0 280 1080 darkC a.alpha,
   Op.fillRect 280 0 520 1080 paperC a.alpha,
   Op.fillRect 800 0 280 1080 darkC a.alpha] ++
  drawMarginLineOps K a 280 1 ++
  [Op.fillRect 304 56 32 3 redC a.alpha,
   Op.text "TIGHT MARGINS" 304 84
     "700 14px \x27JetBrains Mono\x27, monospace" calloutC
     a.align a.alpha a.lspace] ++
  wrapTextOps K cwf a titleFont inkC title 304 420 472 80 ++
  [Op.fillRect 304 ruleY 80 4 redC a.alpha] ++
  wrapTextOps K cwf a "500 32px \x27Newsreader\x27, Georgia, serif" redC
    (dget d "subtitle" "") 304 (ruleY + 44) 472 42 ++
  [Op.text "TIGHT MARGINS" 304 1032
    "400 18px \x27JetBrains Mono\x27, monospace" greyC
    a.align a.alpha a.lspace]

def coverExit (c : Ctx) : Ctx :=
  { c with font := "400 18px \x27JetBrains Mono\x27, monospace",
           fillStyle := greyC }

/-- `single`: headline wrap, then the body (with optional emphasis)
starting below the headline's wrapped lines. -/
def singleOps (cwf : String → Char → ℕ) (d : Data) (num : Option ℕ)
    (a : AProj) : List (Op K) :=
  let hFont := "700 68px \x27Inter Tight\x27, sans-serif"
  let headline := dget d "headline" "Headline"
  let hLines := wrapCount cwf hFont headline 840
  let bodyY : K := 180 + (hLines : K) * 76 + 48
  [Op.fillRect 0 0 1080 1080 paperC a.alpha] ++
  drawRuledLinesOps K a ++ drawMarginLineOps K a 144 (7 / 10) ++
  numberOps K a num ++
  wrapTextOps K cwf a hFont inkC headline 176 180 840 76 ++
  drawTextWithEmphasisOps K cwf a
    "500 34px \x27Newsreader\x27, Georgia, serif" inkC
    (dget d "body" "") (dget d "emphasis" "") 176 bodyY 840 46 redC

def singleExit (c : Ctx) : Ctx :=
  { c with font := "500 34px \x27Newsreader\x27, Georgia, serif",
           fillStyle := inkC }

/-- `comparison`: center divider, optional centered "vs" label (which
resets the alignment to `start` afterwards), and two header/body
columns. -/
def comparisonOps (cwf : String → Char → ℕ) (d : Data) (num : Option ℕ)
    (a : AProj) : List (Op K) :=
  let hasVs := dtruthy d "vs_label"
  let a2 : AProj := if hasVs then { a with align := "start" } else a
  [Op.fillRect 0 0 1080 1080 paperC a.alpha] ++
  drawRuledLinesOps K a ++ drawMarginLineOps K a 144 (7 / 10) ++
  numberOps K a num ++
  [Op.pathStroke [.move 596 120, .line 596 1016] greyC (1 / 2) a.alpha
    a.cap a.join a.dash] ++
  (if hasVs then
    [Op.text (dget d "vs_label" "") 596 310
      "700 22px \x27JetBrains Mono\x27, monospace" greyC "center"
      a.alpha a.lspace]
  else []) ++
  [Op.text (dget d "left_header" "Left") 176 180
    "600 44px \x27Inter Tight\x27, sans-serif" inkC a2.align a.alpha
    a.lspace] ++
  wrapTextOps K cwf a2 "500 30px \x27Newsreader\x27, Georgia, serif" inkC
    (dget d "left_body" "") 176 236 408 42 ++
  [Op.text (dget d "right_header" "Right") 608 180
    "600 44px \x27Inter Tight\x27, sans-serif" inkC a2.align a.alpha
    a.lspace] ++
  wrapTextOps K cwf a2 "500 30px \x27Newsreader\x27, Georgia, serif" inkC
    (dget d "right_body" "") 608 236 408 42

def comparisonExit (d : Data) (c : Ctx) : Ctx :=
  { c with font := "500 30px \x27Newsreader\x27, Georgia, serif",
           fillStyle := inkC,
           textAlign := if dtruthy d "vs_label" then "start"
             else c.textAlign }

/-- The diagram label font. -/
def labelFontS : String := "500 24px \x27JetBrains Mono\x27, monospace"

/-- Comma-split, trimmed, non-empty labels, at most 8. -/
def frameworkLabels (d : Data) : List String :=
  (((jsSplit ',' (dget d "labels" "")).map jsTrim).filter
    fun s => s ≠ "").take 8

/-- One flow row's paint operations: box outline, centered label, and —
after every box but the last — the arrow shaft and its triangular
head. -/
def flowRowOps (a : AProj) : List (String × ℚ) → K → K → List (Op K)
  | [], _, _ => []
  | (l, w) :: rest, curX, rowY =>
    [Op.strokeRect curX rowY ((w : ℚ) : K) 64 inkC 2 a.alpha a.cap
       a.join a.dash,
     Op.text l (curX + ((w : ℚ) : K) / 2) (rowY + 40) labelFontS inkC
       "center" a.alpha a.lspace] ++
    (if rest = [] then [] else
      [Op.pathStroke [.move (curX + ((w : ℚ) : K) + 4) (rowY + 32),
          .line (curX + ((w : ℚ) : K) + 32) (rowY + 32)] inkC (3 / 2)
        a.alpha a.cap a.join a.dash,
       Op.pathFill [.move (curX + ((w : ℚ) : K) + 32) (rowY + 32),
          .line (curX + ((w : ℚ) : K) + 26) (rowY + 27),
          .line (curX + ((w : ℚ) : K) + 26) (rowY + 37), .close] inkC
        a.alpha]) ++
    flowRowOps a rest (curX + ((w : ℚ) : K) + 36) rowY

/-- The hierarchy diagram's child walk: junction branch, child box,
centered child label, cursor advance by width plus the 20 px gap. -/
def hierChildOps (a : AProj) : List (String × ℚ) → K → List (Op K)
  | [], _ => []
  | (child, bw) :: rest, curX =>
    [Op.pathStroke [.move 596 342, .line (curX + ((bw : ℚ) : K) / 2) 342,
        .line (curX + ((bw : ℚ) : K) / 2) 378] inkC (3 / 2) a.alpha
      a.cap a.join a.dash,
     Op.strokeRect curX 378 ((bw : ℚ) : K) 56 inkC (3 / 2) a.alpha a.cap
       a.join a.dash,
     Op.text child (curX + ((bw : ℚ) : K) / 2) 414 labelFontS inkC
       "center" a.alpha a.lspace] ++
    hierChildOps a rest (curX + ((bw : ℚ) : K) + 20)

/-- `framework`: title, then one of the four diagram variants (nothing
when the label list is empty or the type is unknown), then the optional
caption. -/
def frameworkOps (cwf : String → Char → ℕ) (d : Data) (num : Option ℕ)
    (piv : K) (cosf sinf : K → K) (a : AProj) : List (Op K) :=
  let labels := frameworkLabels d
  let dtype := dget d "diagram_type" "flow"
  let cap := dtruthy d "caption"
  let cy : K := ((flowCy cap : ℚ) : K)
  ([Op.fillRect 0 0 1080 1080 paperC a.alpha] : List (Op K)) ++
  drawRuledLinesOps K a ++ drawMarginLineOps K a 144 (7 / 10) ++
  numberOps K a num ++
  ([Op.text (dget d "title" "Framework") 176 172
    "700 52px \x27Inter Tight\x27, sans-serif" inkC a.align a.alpha
    a.lspace] : List (Op K)) ++
  (if labels = [] then [] else
    if dtype = "flow" then
      let items := labels.zip (flowBoxWidths (cwf labelFontS) labels)
      if rowTot items ≤ 840 then
        flowRowOps K a items (((596 - rowTot items / 2 : ℚ) : K)) (cy - 32)
      else
        let half := (labels.length + 1) / 2
        flowRowOps K a (items.take half)
          (((596 - rowTot (items.take half) / 2 : ℚ) : K)) (cy - 50) ++
        flowRowOps K a (items.drop half)
          (((596 - rowTot (items.drop half) / 2 : ℚ) : K))
          (cy - 50 + 104)
    else if dtype = "quadrant" then
      let areaH : ℚ := (if cap then 960 else 1000) - 230
      let qW : ℚ := 840 * (78 / 100)
      let qH : ℚ := areaH * (82 / 100)
      let qx : ℚ := 596 - qW / 2
      let qy : ℚ := flowCy cap - qH / 2
      [Op.pathStroke [.move 596 ((qy : ℚ) : K),
          .line 596 (((qy + qH : ℚ) : K)), .move (((qx : ℚ) : K)) cy,
          .line (((qx + qW : ℚ) : K)) cy] inkC (3 / 2) a.alpha a.cap
        a.join a.dash] ++
      ((labels.take 4).zip
        [(qx + qW * (1 / 4), qy + qH * (3 / 10)),
         (qx + qW * (3 / 4), qy + qH * (3 / 10)),
         (qx + qW * (1 / 4), qy + qH * (7 / 10)),
         (qx + qW * (3 / 4), qy + qH * (7 / 10))]).map fun p =>
        Op.text p.1 ((p.2.1 : ℚ) : K) (((p.2.2 + 8 : ℚ) : K)) labelFontS
          inkC "center" a.alpha a.lspace
    else if dtype = "cycle" then
      let nodes := cycleNodes K (cwf labelFontS) labels cap piv cosf sinf
      let radius : K := ((cycleRingRadius cap : ℚ) : K)
      Op.pathStroke [.arc 596 cy radius 0 (piv * 2)] greyC 1 a.alpha
        a.cap a.join [6, 4] ::
      (labels.zip nodes).flatMap fun p =>
        [Op.pathFill [.arc p.2.x p.2.y ((p.2.r : ℚ) : K) 0 (piv * 2)]
           paperC a.alpha,
         Op.pathStroke [.arc p.2.x p.2.y ((p.2.r : ℚ) : K) 0 (piv * 2)]
           inkC (3 / 2) a.alpha a.cap a.join a.dash,
         Op.text p.1 p.2.x (p.2.y + 8) labelFontS inkC "center" a.alpha
           a.lspace]
    else if dtype = "hierarchy" then
      match labels with
      | [] => []
      | root :: children =>
        let rootW : ℚ := (measureW (cwf labelFontS) root : ℚ) + 56
        let rootX : ℚ := 596 - rootW / 2
        [Op.strokeRect ((rootX : ℚ) : K) 250 ((rootW : ℚ) : K) 56 redC 2
           a.alpha a.cap a.join a.dash,
         Op.text root 596 286 labelFontS redC "center" a.alpha
           a.lspace] ++
        (if children = [] then [] else
          let cws := children.map fun ch =>
            (measureW (cwf labelFontS) ch : ℚ) + 40
          let totalW : ℚ := cws.sum + ((children.length : ℚ) - 1) * 20
          Op.pathStroke [.move 596 306, .line 596 342] inkC (3 / 2)
            a.alpha a.cap a.join a.dash ::
          hierChildOps K a (children.zip cws)
            (((596 - totalW / 2 : ℚ) : K)))
    else []) ++
  (if cap then
    ([Op.text (dget d "caption" "") 176 1000
      "500 24px \x27Newsreader\x27, Georgia, serif" calloutC a.align
      a.alpha a.lspace] : List (Op K))
  else [])

def frameworkExit (d : Data) (c : Ctx) : Ctx :=
  let labels := frameworkLabels d
  let dtype := dget d "diagram_type" "flow"
  let cap := dtruthy d "caption"
  let fontAfter :=
    if labels ≠ [] ∧
        (dtype = "flow" ∨ dtype = "cycle" ∨ dtype = "hierarchy") then
      labelFontS
    else "700 52px \x27Inter Tight\x27, sans-serif"
  { c with
    font := if cap then "500 24px \x27Newsreader\x27, Georgia, serif"
      else fontAfter,
    fillStyle := if cap then calloutC else inkC }

/-- `punchline`: vertically centered wrapped headline (its own greedy
wrap with no paragraph split), optional per-word red emphasis (color
only). -/
def punchlineOps (cwf : String → Char → ℕ) (d : Data) (a : AProj) :
    List (Op K) :=
  let font := "700 76px \x27Inter Tight\x27, sans-serif"
  let text := dget d "text" "Your punchline here."
  let emphasis := dget d "emphasis" ""
  let cw := cwf font
  let lines := wrapParaLoop cw 840 (jsSplit ' ' text) ""
  let startY : K := ((1080 : K) - ((lines.length * 84 : ℕ) : K)) / 2 + 76
  let emphW := if emphasis ≠ "" then jsSplit ' ' (jsLower emphasis) else []
  ([Op.fillRect 0 0 1080 1080 paperC a.alpha] : List (Op K)) ++
  drawRuledLinesOps K a ++ drawMarginLineOps K a 144 (7 / 10) ++
  (punchLinesOps K a font cw emphW (measureW cw " ") startY
    lines.enum inkC).1

def punchlineExit (cwf : String → Char → ℕ) (d : Data) (c : Ctx) : Ctx :=
  let font := "700 76px \x27Inter Tight\x27, sans-serif"
  let text := dget d "text" "Your punchline here."
  let emphasis := dget d "emphasis" ""
  let cw := cwf font
  let lines := wrapParaLoop cw 840 (jsSplit ' ' text) ""
  let emphW := if emphasis ≠ "" then jsSplit ' ' (jsLower emphasis) else []
  { c with font := font,
           fillStyle := (punchLinesOps ℚ ⟨c.textAlign, c.globalAlpha,
             c.lineDash, c.lineCap, c.lineJoin, c.letterSpacing⟩ font cw
             emphW (measureW cw " ") 0 lines.enum inkC).2 }

/-- `data`: oversized data point, wrapped context, optional source
line. -/
def dataOps (cwf : String → Char → ℕ) (d : Data) (num : Option ℕ)
    (a : AProj) : List (Op K) :=
  ([Op.fillRect 0 0 1080 1080 paperC a.alpha] : List (Op K)) ++
  drawRuledLinesOps K a ++ drawMarginLineOps K a 144 (7 / 10) ++
  numberOps K a num ++
  [Op.text (dget d "data_point" "0%") 176 480
    "700 108px \x27JetBrains Mono\x27, monospace" redC a.align a.alpha
    a.lspace] ++
  wrapTextOps K cwf a "500 32px \x27Newsreader\x27, Georgia, serif" inkC
    (dget d "context" "") 176 548 840 44 ++
  (if dtruthy d "source" then
    ([Op.text (dget d "source" "") 176 1000
      "italic 500 20px \x27Newsreader\x27, Georgia, serif" greyC a.align
      a.alpha a.lspace] : List (Op K))
  else [])

def dataExit (d : Data) (c : Ctx) : Ctx :=
  if dtruthy d "source" then
    { c with font := "italic 500 20px \x27Newsreader\x27, Georgia, serif",
             fillStyle := greyC }
  else
    { c with font := "500 32px \x27Newsreader\x27, Georgia, serif",
             fillStyle := inkC }

/-- `cta`: dark full-bleed closing slide. -/
def ctaOps (d : Data) (a : AProj) : List (Op K) :=
  ([Op.fillRect 0 0 1080 1080 darkC a.alpha] : List (Op K)) ++
  drawMarginLineOps K a 144 (6 / 10) ++
  [Op.text "TIGHT MARGINS" 176 440
    "900 72px \x27Inter Tight\x27, sans-serif" paperC a.align a.alpha
    a.lspace,
   Op.fillRect 176 468 80 4 redC a.alpha,
   Op.text (dget d "cta_text" "Subscribe for more.") 176 540
    "600 40px \x27Inter Tight\x27, sans-serif" paperC a.align a.alpha
    a.lspace,
   Op.text (dget d "url" "tightmargins.com") 176 592
    "400 26px \x27JetBrains Mono\x27, monospace" redC a.align a.alpha
    a.lspace] ++
  (if dtruthy d "handle" then
    ([Op.text (dget d "handle" "") 176 628
      "400 22px \x27JetBrains Mono\x27, monospace" greyC a.align a.alpha
      a.lspace] : List (Op K))
  else [])

def ctaExit (d : Data) (c : Ctx) : Ctx :=
  if dtruthy d "handle" then
    { c with font := "400 22px \x27JetBrains Mono\x27, monospace",
             fillStyle := greyC }
  else
    { c with font := "400 26px \x27JetBrains Mono\x27, monospace",
             fillStyle := redC }

/-- The numbered list's populated items, in slot order. -/
def numberedItems (d : Data) : List (String × String) :=
  (List.range 5).filterMap fun k =>
    if dtruthy d ("item" ++ toString (k + 1) ++ "_title") then
      some (dget d ("item" ++ toString (k + 1) ++ "_title") "",
        dget d ("item" ++ toString (k + 1) ++ "_body") "")
    else none

/-- `numbered_list`: wrapped headline, then up to five numbered items
with spacing keyed to the item count (≤3 → 140, 4 → 118, 5 → 100) and a
faint separator between consecutive items. -/
def numberedListOps (cwf : String → Char → ℕ) (d : Data)
    (num : Option ℕ) (a : AProj) : List (Op K) :=
  let hFont := "700 68px \x27Inter Tight\x27, sans-serif"
  let headline := dget d "headline" "Your List"
  let hLines := wrapCount cwf hFont headline 840
  let items := numberedItems d
  ([Op.fillRect 0 0 1080 1080 paperC a.alpha] : List (Op K)) ++
  drawRuledLinesOps K a ++ drawMarginLineOps K a 144 (7 / 10) ++
  numberOps K a num ++
  wrapTextOps K cwf a hFont inkC headline 176 180 840 76 ++
  (if items = [] then [] else
    let listStart : ℕ := max (180 + hLines * 76 + 34) 290
    let spacing : ℕ :=
      if items.length ≤ 3 then 140
      else if items.length = 4 then 118 else 100
    (items.enum).flatMap fun p =>
      ([Op.text (toString (p.1 + 1)) 176
          (((listStart + p.1 * spacing + 28 : ℕ) : K))
          "700 36px \x27JetBrains Mono\x27, monospace" redC a.align
          a.alpha a.lspace,
        Op.text p.2.1 248 (((listStart + p.1 * spacing + 20 : ℕ) : K))
          "600 24px \x27Inter Tight\x27, sans-serif" inkC a.align a.alpha
          a.lspace] : List (Op K)) ++
      (if p.2.2 ≠ "" then
        wrapTextOps K cwf a
          "400 20px \x27Newsreader\x27, Georgia, serif" inkC p.2.2 248
          (((listStart + p.1 * spacing + 48 : ℕ) : K)) 768 28
      else []) ++
      (if p.1 < items.length - 1 then
        ([Op.pathStroke
          [.move 248 (((listStart + p.1 * spacing + spacing - 16 : ℕ) : K)),
           .line 700 (((listStart + p.1 * spacing + spacing - 16 : ℕ) : K))]
          greyC (1 / 2) (1 / 2) a.cap a.join a.dash] : List (Op K))
      else []))

def numberedListExit (d : Data) (c : Ctx) : Ctx :=
  match (numberedItems d).getLast? with
  | none =>
    { c with font := "700 68px \x27Inter Tight\x27, sans-serif",
             fillStyle := inkC }
  | some it =>
    { c with
      font := if it.2 ≠ "" then
          "400 20px \x27Newsreader\x27, Georgia, serif"
        else "600 24px \x27Inter Tight\x27, sans-serif",
      fillStyle := inkC }

/-- `quote`: decorative quotation mark at quarter alpha, italic wrapped
quote, short red rule below it, optional attribution and role. -/
def quoteOps (cwf : String → Char → ℕ) (d : Data) (num : Option ℕ)
    (a : AProj) : List (Op K) :=
  let qFont := "italic 500 32px \x27Newsreader\x27, Georgia, serif"
  let qText := dget d "quote_text" "Your quote here."
  let qLines := wrapCount cwf qFont qText 740
  let ruleY : ℕ := 440 + qLines * 46 + 20
  ([Op.fillRect 0 0 1080 1080 paperC a.alpha] : List (Op K)) ++
  drawRuledLinesOps K a ++ drawMarginLineOps K a 144 (7 / 10) ++
  numberOps K a num ++
  [Op.text "“" 164 400
    "600 120px \x27Newsreader\x27, Georgia, serif" redC a.align (1 / 4)
    a.lspace] ++
  wrapTextOps K cwf a qFont inkC qText 176 440 740 46 ++
  [Op.fillRect 176 ((ruleY : ℕ) : K) 48 2 redC a.alpha] ++
  (if dtruthy d "attribution" then
    ([Op.text (dget d "attribution" "") 176 (((ruleY + 32 : ℕ) : K))
      "400 16px \x27JetBrains Mono\x27, monospace" greyC a.align a.alpha
      a.lspace] : List (Op K)) ++
    (if dtruthy d "role" then
      ([Op.text (dget d "role" "") 176 (((ruleY + 54 : ℕ) : K))
        "400 13px \x27JetBrains Mono\x27, monospace" greyC a.align
        (7 / 10) a.lspace] : List (Op K))
    else [])
  else [])

def quoteExit (d : Data) (c : Ctx) : Ctx :=
  if dtruthy d "attribution" then
    { c with font := "400 16px \x27JetBrains Mono\x27, monospace",
             fillStyle := greyC }
  else
    { c with font := "italic 500 32px \x27Newsreader\x27, Georgia, serif",
             fillStyle := redC }

/-- `section_divider`: red part label (upper-cased, letter-spaced),
short rule, wrapped section title. -/
def sectionDividerOps (cwf : String → Char → ℕ) (d : Data) (a : AProj) :
    List (Op K) :=
  ([Op.fillRect 0 0 1080 1080 paperC a.alpha] : List (Op K)) ++
  drawRuledLinesOps K a ++ drawMarginLineOps K a 144 (7 / 10) ++
  [Op.text (jsUpper (dget d "part_label" "PART ONE")) 176 440
    "400 16px \x27JetBrains Mono\x27, monospace" redC a.align a.alpha
    "1.3px",
   Op.fillRect 176 456 48 2 redC a.alpha] ++
  wrapTextOps K cwf { a with lspace := "0px" }
    "700 44px \x27Inter Tight\x27, sans-serif" inkC
    (dget d "section_title" "Section Title") 176 510 840 52

def sectionDividerExit (c : Ctx) : Ctx :=
  { c with font := "700 44px \x27Inter Tight\x27, sans-serif",
           fillStyle := inkC, letterSpacing := "0px" }

/-- One `two_up` item: quarter-alpha decorative number, title, optional
wrapped body. -/
def twoUpItemOps (cwf : String → Char → ℕ) (d : Data) (a : AProj)
    (n : ℕ) (tKey bKey : String) (y : ℕ) : List (Op K) :=
  ([Op.text (toString n) 176 (((y + 44 : ℕ) : K))
     "700 52px \x27JetBrains Mono\x27, monospace" redC a.align (1 / 4)
     a.lspace,
    Op.text (dget d tKey "") 256 (((y + 28 : ℕ) : K))
     "600 26px \x27Inter Tight\x27, sans-serif" inkC a.align a.alpha
     a.lspace] : List (Op K)) ++
  (if dtruthy d bKey then
    wrapTextOps K cwf a "400 22px \x27Newsreader\x27, Georgia, serif"
      inkC (dget d bKey "") 256 (((y + 60 : ℕ) : K)) 760 32
  else [])

/-- `two_up`: wrapped headline, two stacked items, faint divider between
them. -/
def twoUpOps (cwf : String → Char → ℕ) (d : Data) (num : Option ℕ)
    (a : AProj) : List (Op K) :=
  let hFont := "700 68px \x27Inter Tight\x27, sans-serif"
  let headline := dget d "headline" "Two things"
  let hLines := wrapCount cwf hFont headline 840
  let item1Y : ℕ := max (180 + hLines * 76 + 12) 268
  ([Op.fillRect 0 0 1080 1080 paperC a.alpha] : List (Op K)) ++
  drawRuledLinesOps K a ++ drawMarginLineOps K a 144 (7 / 10) ++
  numberOps K a num ++
  wrapTextOps K cwf a hFont inkC headline 176 180 840 76 ++
  twoUpItemOps K cwf d a 1 "item1_title" "item1_body" item1Y ++
  twoUpItemOps K cwf d a 2 "item2_title" "item2_body" (item1Y + 272) ++
  [Op.pathStroke [.move 256 (((item1Y + 232 : ℕ) : K)),
      .line 900 (((item1Y + 232 : ℕ) : K))] greyC (1 / 2) (1 / 2) a.cap
    a.join a.dash]

def twoUpExit (d : Data) (c : Ctx) : Ctx :=
  { c with
    font := if dtruthy d "item2_body" then
        "400 22px \x27Newsreader\x27, Georgia, serif"
      else "600 26px \x27Inter Tight\x27, sans-serif",
    fillStyle := inkC }

/-- One `three_up` column: numbered circle (red for the first column),
title, wrapped body. -/
def threeUpColOps (cwf : String → Char → ℕ) (d : Data) (a : AProj)
    (piv : K) (itemsY : ℕ) (i colX : ℕ) : List (Op K) :=
  let color := if i = 0 then redC else inkC
  ([Op.pathStroke [.arc (((colX + 28 : ℕ) : K)) (((itemsY + 28 : ℕ) : K))
       28 0 (piv * 2)] color 2 a.alpha a.cap a.join a.dash,
    Op.text (toString (i + 1)) (((colX + 28 : ℕ) : K))
     (((itemsY + 36 : ℕ) : K)) "700 22px \x27JetBrains Mono\x27, monospace"
     color "center" a.alpha a.lspace,
    Op.text (dget d ("item" ++ toString (i + 1) ++ "_title") "")
     ((colX : ℕ) : K) (((itemsY + 84 : ℕ) : K))
     "600 22px \x27Inter Tight\x27, sans-serif" inkC a.align a.alpha
     a.lspace] : List (Op K)) ++
  wrapTextOps K cwf a "400 18px \x27Newsreader\x27, Georgia, serif" inkC
    (dget d ("item" ++ toString (i + 1) ++ "_body") "") ((colX : ℕ) : K)
    (((itemsY + 112 : ℕ) : K)) 256 26

/-- `three_up`: wrapped headline, two faint column dividers, three
columns. -/
def threeUpOps (cwf : String → Char → ℕ) (d : Data) (num : Option ℕ)
    (piv : K) (a : AProj) : List (Op K) :=
  let hFont := "700 68px \x27Inter Tight\x27, sans-serif"
  let headline := dget d "headline" "Three pillars"
  let hLines := wrapCount cwf hFont headline 840
  let itemsY : ℕ := max (180 + hLines * 76 + 34) 290
  ([Op.fillRect 0 0 1080 1080 paperC a.alpha] : List (Op K)) ++
  drawRuledLinesOps K a ++ drawMarginLineOps K a 144 (7 / 10) ++
  numberOps K a num ++
  wrapTextOps K cwf a hFont inkC headline 176 180 840 76 ++
  [Op.pathStroke [.move 450 ((itemsY : ℕ) : K), .line 450 1016] greyC
    (1 / 2) (2 / 5) a.cap a.join a.dash,
   Op.pathStroke [.move 742 ((itemsY : ℕ) : K), .line 742 1016] greyC
    (1 / 2) (2 / 5) a.cap a.join a.dash] ++
  threeUpColOps K cwf d a piv itemsY 0 176 ++
  threeUpColOps K cwf d a piv itemsY 1 468 ++
  threeUpColOps K cwf d a piv itemsY 2 760

def threeUpExit (c : Ctx) : Ctx :=
  { c with font := "400 18px \x27Newsreader\x27, Georgia, serif",
           fillStyle := inkC }

/-- The populated do/dont column items, in slot order. -/
def checklistItems (d : Data) (stem : String) : List String :=
  (List.range 4).filterMap fun k =>
    if dtruthy d (stem ++ toString (k + 1)) then
      some (dget d (stem ++ toString (k + 1)) "")
    else none

/-- `checklist`: DO THIS / NOT THIS headers with measured underlines,
check marks with ink items on the left, crosses with grey items on the
right. -/
def checklistOps (cwf : String → Char → ℕ) (d : Data) (num : Option ℕ)
    (a : AProj) : List (Op K) :=
  let mono14 := "700 14px \x27JetBrains Mono\x27, monospace"
  let doW := measureW (cwf mono14) "DO THIS"
  let dontW := measureW (cwf mono14) "NOT THIS"
  ([Op.fillRect 0 0 1080 1080 paperC a.alpha] : List (Op K)) ++
  drawRuledLinesOps K a ++ drawMarginLineOps K a 144 (7 / 10) ++
  numberOps K a num ++
  wrapTextOps K cwf a "700 68px \x27Inter Tight\x27, sans-serif" inkC
    (dget d "headline" "Do this, not that") 176 180 840 76 ++
  [Op.pathStroke [.move 596 244, .line 596 1000] greyC (1 / 2) (3 / 10)
    a.cap a.join a.dash,
   Op.text "DO THIS" 176 256 mono14 redC a.align a.alpha a.lspace,
   Op.pathStroke [.move 176 260, .line (((176 + doW : ℕ) : K)) 260] redC
    1 a.alpha a.cap a.join a.dash,
   Op.text "NOT THIS" 612 256 mono14 greyC a.align a.alpha a.lspace,
   Op.pathStroke [.move 612 260, .line (((612 + dontW : ℕ) : K)) 260]
    greyC 1 a.alpha a.cap a.join a.dash] ++
  ((checklistItems d "do").enum).flatMap (fun p =>
    ([Op.pathStroke [.move 180 (((290 + p.1 * 80 + 10 : ℕ) : K)),
        .line 185 (((290 + p.1 * 80 + 16 : ℕ) : K)),
        .line 196 (((290 + p.1 * 80 + 3 : ℕ) : K))] redC (5 / 2) a.alpha
      "round" "round" a.dash] : List (Op K)) ++
    wrapTextOps K cwf a "400 20px \x27Newsreader\x27, Georgia, serif"
      inkC p.2 208 (((290 + p.1 * 80 + 14 : ℕ) : K)) 364 28) ++
  ((checklistItems d "dont").enum).flatMap fun p =>
    ([Op.pathStroke [.move 615 (((290 + p.1 * 80 + 3 : ℕ) : K)),
        .line 631 (((290 + p.1 * 80 + 19 : ℕ) : K)),
        .move 631 (((290 + p.1 * 80 + 3 : ℕ) : K)),
        .line 615 (((290 + p.1 * 80 + 19 : ℕ) : K))] greyC (5 / 2)
      a.alpha "round" a.join a.dash] : List (Op K)) ++
    wrapTextOps K cwf a "400 20px \x27Newsreader\x27, Georgia, serif"
      greyC p.2 644 (((290 + p.1 * 80 + 14 : ℕ) : K)) 364 28

def checklistExit (d : Data) (c : Ctx) : Ctx :=
  let doSome := checklistItems d "do" ≠ []
  let dontSome := checklistItems d "dont" ≠ []
  { c with
    font := if doSome ∨ dontSome then
        "400 20px \x27Newsreader\x27, Georgia, serif"
      else "700 14px \x27JetBrains Mono\x27, monospace",
    fillStyle := if dontSome then greyC
      else if doSome then inkC else greyC }

/-- `blank`: optional wrapped header and footer callout only. -/
def blankOps (cwf : String → Char → ℕ) (d : Data) (num : Option ℕ)
    (a : AProj) : List (Op K) :=
  ([Op.fillRect 0 0 1080 1080 paperC a.alpha] : List (Op K)) ++
  drawRuledLinesOps K a ++ drawMarginLineOps K a 144 (7 / 10) ++
  numberOps K a num ++
  (if dtruthy d "header" then
    wrapTextOps K cwf a "700 40px \x27Inter Tight\x27, sans-serif" inkC
      (dget d "header" "") 176 180 760 48
  else []) ++
  (if dtruthy d "callout" then
    wrapTextOps K cwf a "italic 400 18px \x27Newsreader\x27, Georgia, serif"
      greyC (dget d "callout" "") 176 980 500 26
  else [])

def blankExit (d : Data) (num : Option ℕ) (c : Ctx) : Ctx :=
  if dtruthy d "callout" then
    { c with font := "italic 400 18px \x27Newsreader\x27, Georgia, serif",
             fillStyle := greyC }
  else if dtruthy d "header" then
    { c with font := "700 40px \x27Inter Tight\x27, sans-serif",
             fillStyle := inkC }
  else
    match num with
    | some n =>
      if n = 0 then c
      else { c with font := "400 20px \x27JetBrains Mono\x27, monospace",
                    fillStyle := greyC }
    | none => c

end

/-- The 14 registered templates. -/
inductive Template where
  | cover | single | comparison | framework | punchline | data | cta
  | numbered_list | quote | section_divider | two_up | three_up
  | checklist | blank
deriving DecidableEq

/-- The renderer registry lookup `renderers[template]`. -/
def renderersLookup : String → Option Template := fun s =>
  if s = "cover" then some .cover
  else if s = "single" then some .single
  else if s = "comparison" then some .comparison
  else if s = "framework" then some .framework
  else if s = "punchline" then some .punchline
  else if s = "data" then some .data
  else if s = "cta" then some .cta
  else if s = "numbered_list" then some .numbered_list
  else if s = "quote" then some .quote
  else if s = "section_divider" then some .section_divider
  else if s = "two_up" then some .two_up
  else if s = "three_up" then some .three_up
  else if s = "checklist" then some .checklist
  else if s = "blank" then some .blank
  else none

section

variable (K : Type) [Field K]

/-- One render call: the paint operations emitted and the context state
left behind.  `piv`, `cosf`, `sinf` abstract `Math.PI`, `Math.cos`,
`Math.sin`. -/
def renderT (t : Template) (cwf : String → Char → ℕ) (d : Data)
    (num : Option ℕ) (piv : K) (cosf sinf : K → K) (c : Ctx) :
    List (Op K) × Ctx :=
  match t with
  | .cover => (coverOps K cwf d c.aproj, coverExit c)
  | .single => (singleOps K cwf d num c.aproj, singleExit c)
  | .comparison => (comparisonOps K cwf d num c.aproj, comparisonExit d c)
  | .framework => (frameworkOps K cwf d num piv cosf sinf c.aproj,
      frameworkExit d c)
  | .punchline => (punchlineOps K cwf d c.aproj, punchlineExit cwf d c)
  | .data => (dataOps K cwf d num c.aproj, dataExit d c)
  | .cta => (ctaOps K d c.aproj, ctaExit d c)
  | .numbered_list => (numberedListOps K cwf d num c.aproj,
      numberedListExit d c)
  | .quote => (quoteOps K cwf d num c.aproj, quoteExit d c)
  | .section_divider => (sectionDividerOps K cwf d c.aproj,
      sectionDividerExit c)
  | .two_up => (twoUpOps K cwf d num c.aproj, twoUpExit d c)
  | .three_up => (threeUpOps K cwf d num piv c.aproj, threeUpExit c)
  | .checklist => (checklistOps K cwf d num c.aproj, checklistExit d c)
  | .blank => (blankOps K cwf d num c.aproj, blankExit d num c)

end

section

variable (K : Type) [LinearOrderedField K]

/-- An abstract rasterizer: which points an operation paints, and the
resulting color there (which may blend with the old color).  The only
fixed facts are the geometry and opacity of a full-alpha `fillRect`:
it paints at least its half-open rectangle, with the fill style
replacing whatever was below. -/
structure Raster where
  covers : Op K → K × K → Bool
  paint : Op K → K × K → String → String
  fr_covers : ∀ (x y w h : K) (s : String) (p : K × K),
    x ≤ p.1 → p.1 < x + w → y ≤ p.2 → p.2 < y + h →
    covers (Op.fillRect x y w h s 1) p = true
  fr_opaque : ∀ (x y w h : K) (s : String) (p : K × K) (old : String),
    paint (Op.fillRect x y w h s 1) p old = s

/-- Applying one operation to a surface. -/
def paintOp (R : Raster K) (surf : K × K → String) (op : Op K) :
    K × K → String :=
  fun p => if R.covers op p then R.paint op p (surf p) else surf p

/-- Applying a list of operations, first to last. -/
def paintOps (R : Raster K) (surf : K × K → String) :
    List (Op K) → (K × K → String)
  | [] => surf
  | op :: ops => paintOps R (paintOp K R surf op) ops

/-- The canvas: the half-open square `[0, 1080) × [0, 1080)`. -/
def OnCanvas (p : K × K) : Prop :=
  0 ≤ p.1 ∧ p.1 < 1080 ∧ 0 ≤ p.2 ∧ p.2 < 1080

end

/-- `SlideCanvas`'s draw effect: clear the square canvas, then invoke
the renderer selected by `renderers[template]` — when the lookup fails
(unknown template identifier) nothing further is drawn and the call
returns normally. -/
def slideCanvasOps (K : Type) [Field K] (cwf : String → Char → ℕ)
    (tid : String) (d : Data) (num : Option ℕ) (piv : K)
    (cosf sinf : K → K) : List (Op K) :=
  Op.clear 0 0 1080 1080 ::
  (match renderersLookup tid with
   | some t => (renderT K t cwf d num piv cosf sinf defaultCtx).1
   | none => [])

/-! ## Theorems -/

/-! Basic facts about `measureW`, `jsTrim` and `splitChar`. -/
theorem measureW_append (cw : Char → ℕ) (a b : String) :
    measureW cw (a ++ b) = measureW cw a + measureW cw b := by
  simp [measureW, String.data_append]

theorem jsTrim_data_sublist (s : String) :
    List.Sublist (jsTrim s).data s.data := by
  have h1 : List.Sublist (s.data.dropWhile isWS) s.data :=
    List.dropWhile_sublist isWS
  have h2 : List.Sublist ((s.data.dropWhile isWS).reverse.dropWhile isWS)
      (s.data.dropWhile isWS).reverse := List.dropWhile_sublist isWS
  have h3 := h2.reverse
  simp only [List.reverse_reverse] at h3
  exact h3.trans h1

theorem measureW_jsTrim_le (cw : Char → ℕ) (s : String) :
    measureW cw (jsTrim s) ≤ measureW cw s :=
  ((jsTrim_data_sublist s).map cw).sum_le_sum (fun a _ => Nat.zero_le a)

theorem not_mem_jsTrim_data {c : Char} {s : String} (h : c ∉ s.data) :
    c ∉ (jsTrim s).data :=
  fun hc => h ((jsTrim_data_sublist s).mem hc)

/-- Dropping leading whitespace from `l ++ [' ']` either appends the space
to the result for `l`, or yields `[]` together with the result for `l`. -/
theorem dropWhile_ws_append_space (l : List Char) :
    (l ++ [' ']).dropWhile isWS = l.dropWhile isWS ++ [' '] ∨
      ((l ++ [' ']).dropWhile isWS = [] ∧ l.dropWhile isWS = []) := by
  induction l with
  | nil => right; constructor <;> simp [List.dropWhile, isWS]
  | cons a t ih =>
    by_cases ha : isWS a
    · simpa [List.dropWhile, ha] using ih
    · left; simp [List.dropWhile, ha]

/-- `jsTrim` ignores a trailing space: `jsTrim (s ++ " ") = jsTrim s`. -/
theorem jsTrim_append_space (s : String) : jsTrim (s ++ " ") = jsTrim s := by
  have hd : (s ++ " ").data = s.data ++ [' '] := String.data_append s " "
  rcases dropWhile_ws_append_space s.data with h | ⟨h1, h2⟩
  · simp only [jsTrim, hd, h]
    have : (s.data.dropWhile isWS ++ [' ']).reverse =
        ' ' :: (s.data.dropWhile isWS).reverse := by simp
    rw [this]
    simp [List.dropWhile, isWS]
  · simp [jsTrim, hd, h1, h2]

/-- Separator characters never occur in the pieces returned by
`splitChar`. -/
theorem splitChar_not_mem (c : Char) :
    ∀ l : List Char, ∀ p ∈ splitChar c l, c ∉ p := by
  intro l
  induction l with
  | nil => intro p hp; simp [splitChar] at hp; simp [hp]
  | cons a rest ih =>
    intro p hp
    simp only [splitChar] at hp
    rcases hh : splitChar c rest with _ | ⟨q, qs⟩
    · rw [hh] at hp; simp at hp; simp [hp]
    · rw [hh] at hp
      by_cases hac : a = c
      · simp [hac] at hp
        rcases hp with h | h | h
        · simp [h]
        · rw [h]; exact ih q (by rw [hh]; exact List.mem_cons_self q qs)
        · exact ih p (by rw [hh]; exact List.mem_cons_of_mem q h)
      · simp [hac] at hp
        rcases hp with h | h
        · subst h
          intro hc
          rcases List.mem_cons.mp hc with h | h
          · exact hac h.symm
          · exact ih q (by rw [hh]; exact List.mem_cons_self q qs) h
        · exact ih p (by rw [hh]; exact List.mem_cons_of_mem q h)

/-- Pieces returned by `jsSplit ' '` contain no space character. -/
theorem jsSplit_space_not_mem {p w : String} (hw : w ∈ jsSplit ' ' p) :
    ' ' ∉ w.data := by
  rcases List.mem_map.mp hw with ⟨l, hl, rfl⟩
  exact splitChar_not_mem ' ' p.data l hl

/-- Invariant of the greedy accumulation loop: provided every word of `ws`
comes from the pool `U` and the running `line` is empty, within budget, or
a single pooled word plus trailing space, every emitted line is either
within budget or the trim of a single pooled word. -/
theorem wrapParaLoop_spec (cw : Char → ℕ) (W : ℕ) (U : List String) :
    ∀ ws line, (∀ w ∈ ws, w ∈ U) →
      (line = "" ∨ measureW cw line ≤ W ∨ ∃ w ∈ U, line = w ++ " ") →
      ∀ l ∈ wrapParaLoop cw W ws line,
        measureW cw l ≤ W ∨ ∃ w ∈ U, l = jsTrim w ∧ W < measureW cw w := by
  intro ws
  induction ws with
  | nil =>
    intro line _ hline l hl
    simp only [wrapParaLoop, List.mem_singleton] at hl
    subst hl
    rcases hline with rfl | hle | ⟨w, hwU, rfl⟩
    · left; simp [jsTrim, measureW]
    · left; exact (measureW_jsTrim_le cw line).trans hle
    · rw [jsTrim_append_space]
      by_cases hbig : measureW cw (jsTrim w) ≤ W
      · left; exact hbig
      · right
        exact ⟨w, hwU, rfl,
          lt_of_lt_of_le (lt_of_not_ge hbig) (measureW_jsTrim_le cw w)⟩
  | cons w ws ih =>
    intro line hU hline l hl
    simp only [wrapParaLoop] at hl
    have hwU : w ∈ U := hU w (List.mem_cons_self w ws)
    have hU' : ∀ x ∈ ws, x ∈ U := fun x hx => hU x (List.mem_cons_of_mem w hx)
    by_cases hcond : W < measureW cw (line ++ w ++ " ") ∧ line ≠ ""
    · rw [if_pos hcond] at hl
      rcases List.mem_cons.mp hl with rfl | hl'
      · rcases hline with rfl | hle | ⟨w', hw'U, rfl⟩
        · exact absurd rfl hcond.2
        · left; exact (measureW_jsTrim_le cw line).trans hle
        · rw [jsTrim_append_space]
          by_cases hbig : measureW cw (jsTrim w') ≤ W
          · left; exact hbig
          · right
            exact ⟨w', hw'U, rfl,
              lt_of_lt_of_le (lt_of_not_ge hbig) (measureW_jsTrim_le cw w')⟩
      · exact ih (w ++ " ") hU' (Or.inr (Or.inr ⟨w, hwU, rfl⟩)) l hl'
    · rw [if_neg hcond] at hl
      by_cases hemp : line = ""
      · subst hemp
        have hrw : ("" : String) ++ w ++ " " = w ++ " " := by
          simp
        rw [hrw] at hl
        exact ih (w ++ " ") hU' (Or.inr (Or.inr ⟨w, hwU, rfl⟩)) l hl
      · have hle : measureW cw (line ++ w ++ " ") ≤ W := by
          by_contra hgt
          exact hcond ⟨lt_of_not_ge hgt, hemp⟩
        exact ih (line ++ w ++ " ") hU' (Or.inr (Or.inl hle)) l hl

/-- C1: a line laid out by `wrapText` whose measured width exceeds the
maximum width consists of a single word of the input (it contains no space
character, and equals the trim of a word of one of the input's paragraphs,
placed unsplit), and that word's own measured width already exceeds the
maximum; contrapositively, every laid-out line containing more than one
word has measured width at most the maximum. -/
theorem wrapText_line_width (cw : Char → ℕ) (W : ℕ) (text : String) :
    ∀ l ∈ wrapText cw W text, W < measureW cw l →
      (' ' ∉ l.data) ∧
      ∃ p ∈ jsSplit '\n' text, ∃ w ∈ jsSplit ' ' p,
        l = jsTrim w ∧ W < measureW cw w := by
  intro l hl hwide
  unfold wrapText at hl
  by_cases htext : text = ""
  · rw [if_pos htext] at hl; exact absurd hl (List.not_mem_nil l)
  · rw [if_neg htext] at hl
    unfold wrapLines at hl
    rcases List.mem_flatMap.mp hl with ⟨p, hp, hlp⟩
    by_cases hblank : jsTrim p = ""
    · rw [if_pos hblank] at hlp
      simp only [List.mem_singleton] at hlp
      subst hlp
      exact absurd hwide (by simp [measureW])
    · rw [if_neg hblank] at hlp
      have hspec := wrapParaLoop_spec cw W (jsSplit ' ' p) (jsSplit ' ' p) ""
        (fun _ h => h) (Or.inl rfl) l hlp
      rcases hspec with hle | ⟨w, hwmem, rfl, hwwide⟩
      · exact absurd hwide (not_lt_of_ge hle)
      · exact ⟨not_mem_jsTrim_data (jsSplit_space_not_mem hwmem),
          p, hp, w, hwmem, rfl, hwwide⟩

/-- Closed witness for `wrapText_line_width`: with unit character widths
and width budget 2, the single over-wide word `"hello"` is laid out
unsplit. -/
theorem wrapText_line_width_witness :
    (' ' ∉ ("hello" : String).data) ∧
    ∃ p ∈ jsSplit '\n' "hello", ∃ w ∈ jsSplit ' ' p,
      "hello" = jsTrim w ∧ 2 < measureW (fun _ => 1) w :=
  wrapText_line_width (fun _ => 1) 2 "hello" "hello" (by decide) (by decide)

/-- C6: `wrapText "a\n\nb"` yields three lines for every measurement
function and width: `"a"`, a blank spacer, `"b"`; only the two non-blank
lines are drawn (at line indices 0 and 2). -/
theorem wrapText_blank_paragraph_spacer (cw : Char → ℕ) (maxWidth : ℕ) :
    (wrapText cw maxWidth ("a\n\nb")).length = 3 ∧
    wrapDrawn cw maxWidth ("a\n\nb") = [(0, "a"), (2, "b")] := by
  constructor <;>
    simp [wrapText, wrapLines, wrapParaLoop, jsSplit, splitChar, jsTrim,
      wrapDrawn, List.enum, isWS]

/-- Closed witness for `wrapText_blank_paragraph_spacer` at a concrete
width table. -/
theorem wrapText_blank_paragraph_spacer_concrete :
    (wrapText (fun _ => 1) 100 ("a\n\nb")).length = 3 := by
  decide

/-- C3 counterexample: with body `"xo'x xox"` and phrase `"xox"` (phrase
non-empty and a case-insensitive substring of the body), the rendered word
`"xo'x"` IS emphasized by the source — its cleaned form deletes the
interior apostrophe — although stripping only leading/trailing punctuation
leaves `"xo'x"`, which does not equal the phrase sub-word `"xox"`.  So
emphasis matching is not post-strip equality on edge-stripped words. -/
theorem emphasis_edge_strip_counterexample :
    ("xox" : String) ≠ "" ∧
    jsIncludes (jsLower "xo\x27x xox") (jsLower "xox") = true ∧
    (drawEmphPlaced (fun _ => 1) (fun _ => 1) "xo\x27x xox" "xox" 1000 0).map
        (fun p => p.2.map fun q => (q.word, q.emph)) =
      [[("xo\x27x", true), ("xox", true)]] ∧
    edgeStrip (jsLower "xo\x27x") ≠ "xox" := by
  decide

/-- Helper: every word placed by `walkWords` is emphasized iff its cleaned
form is one of the phrase sub-words; emphasized words are measured with
the bold table and carry an underline spanning exactly that width;
unemphasized words carry none. -/
theorem walkWords_spec (cw cwB : Char → ℕ) (emphW : List String)
    (spW : ℕ) :
    ∀ ws cx, ∀ pw ∈ walkWords cw cwB emphW spW ws cx,
      (pw.emph = true ↔ cleanWord pw.word ∈ emphW) ∧
      (pw.emph = true →
        pw.w = measureW cwB pw.word ∧
        pw.underline = some (pw.x, pw.x + measureW cwB pw.word)) ∧
      (pw.emph = false → pw.underline = none) := by
  intro ws
  induction ws with
  | nil => intro cx pw hpw; exact absurd hpw (List.not_mem_nil pw)
  | cons wd rest ih =>
    intro cx pw hpw
    simp only [walkWords] at hpw
    rcases List.mem_cons.mp hpw with rfl | h
    · by_cases hE : cleanWord wd ∈ emphW
      · simp [hE]
      · simp [hE]
    · exact ih _ pw h

/-- C3 amended: when the phrase is non-empty and a case-insensitive
substring of the text, a rendered word is emphasized (bold, with an
underline drawn 4px below the baseline spanning that word's measured
width) iff its lowercase form with every occurrence of the punctuation
characters (period, comma, !, ?, ;, :, quotes) deleted equals one of the
phrase's space-delimited lowercase sub-words; matching is exact
post-clean equality, never substring containment. -/
theorem emphasis_match_amended (cw cwB : Char → ℕ) (text emph : String)
    (W x : ℕ) (hne : emph ≠ "")
    (hinc : jsIncludes (jsLower text) (jsLower emph) = true) :
    ∀ li ∈ drawEmphPlaced cw cwB text emph W x, ∀ pw ∈ li.2,
      (pw.emph = true ↔ cleanWord pw.word ∈ jsSplit ' ' (jsLower emph)) ∧
      (pw.emph = true →
        pw.w = measureW cwB pw.word ∧
        pw.underline = some (pw.x, pw.x + measureW cwB pw.word)) ∧
      (pw.emph = false → pw.underline = none) := by
  intro li hli pw hpw
  unfold drawEmphPlaced at hli
  by_cases htext : text = ""
  · rw [if_pos htext] at hli; exact absurd hli (List.not_mem_nil li)
  · rw [if_neg htext, if_pos ⟨hne, hinc⟩] at hli
    rcases List.mem_map.mp hli with ⟨p, _, rfl⟩
    exact walkWords_spec cw cwB (jsSplit ' ' (jsLower emph))
      (measureW cw " ") (jsSplit ' ' p.2) x pw hpw

/-- Closed witness for `emphasis_match_amended` at the claim's own
example: body `"The Tight-Margins. rule."`, phrase `"tight-margins"`,
instantiated at the placed word `"Tight-Margins."` (emphasized, with the
underline spanning its measured width). -/
theorem emphasis_match_amended_witness :
    ((⟨"Tight-Margins.", 4, true, 14, some (4, 18)⟩ : PlacedWord).emph =
        true ↔
      cleanWord (⟨"Tight-Margins.", 4, true, 14,
        some (4, 18)⟩ : PlacedWord).word ∈
        jsSplit ' ' (jsLower "tight-margins")) ∧
    ((⟨"Tight-Margins.", 4, true, 14, some (4, 18)⟩ : PlacedWord).emph =
        true →
      (⟨"Tight-Margins.", 4, true, 14, some (4, 18)⟩ : PlacedWord).w =
        measureW (fun _ => 1)
          (⟨"Tight-Margins.", 4, true, 14,
            some (4, 18)⟩ : PlacedWord).word ∧
      (⟨"Tight-Margins.", 4, true, 14,
          some (4, 18)⟩ : PlacedWord).underline =
        some ((⟨"Tight-Margins.", 4, true, 14,
            some (4, 18)⟩ : PlacedWord).x,
          (⟨"Tight-Margins.", 4, true, 14,
            some (4, 18)⟩ : PlacedWord).x +
          measureW (fun _ => 1)
            (⟨"Tight-Margins.", 4, true, 14,
              some (4, 18)⟩ : PlacedWord).word)) ∧
    ((⟨"Tight-Margins.", 4, true, 14, some (4, 18)⟩ : PlacedWord).emph =
        false →
      (⟨"Tight-Margins.", 4, true, 14,
        some (4, 18)⟩ : PlacedWord).underline = none) :=
  emphasis_match_amended (fun _ => 1) (fun _ => 1)
    "The Tight-Margins. rule." "tight-margins" 1000 0
    (by decide) (by decide)
    (0, [⟨"The", 0, false, 3, none⟩,
      ⟨"Tight-Margins.", 4, true, 14, some (4, 18)⟩,
      ⟨"rule.", 19, false, 5, none⟩])
    (by decide)
    ⟨"Tight-Margins.", 4, true, 14, some (4, 18)⟩
    (by decide)

/-- The claim's positive boundary example, evaluated: the word
`"Tight-Margins."` matches the phrase `"tight-margins"` (trailing period
deleted), while `"The"` and `"rule."` do not. -/
theorem tight_margins_example_matches :
    (drawEmphPlaced (fun _ => 1) (fun _ => 1)
        "The Tight-Margins. rule." "tight-margins" 1000 0).map
      (fun p => p.2.map fun q => (q.word, q.emph)) =
    [[("The", false), ("Tight-Margins.", true), ("rule.", false)]] := by
  decide

theorem endsOk_of_endsOkB {l : List Slide} (h : endsOkB l = true) :
    EndsOk l := by
  match l with
  | [] => exact absurd h (by simp [endsOkB])
  | f :: rest =>
    rcases hgl : rest.getLast? with _ | t
    · simp only [endsOkB, hgl] at h
      cases h
    · simp only [endsOkB, hgl, Bool.and_eq_true, beq_iff_eq,
        List.all_eq_true, Bool.not_eq_true'] at h
      obtain ⟨⟨⟨⟨hf1, hf2⟩, ht1⟩, ht2⟩, hmid⟩ := h
      have hne : rest ≠ [] := by
        intro hr; rw [hr] at hgl; cases hgl
      have htl : rest.getLast hne = t := by
        rw [List.getLast?_eq_getLast rest hne] at hgl
        exact Option.some.inj hgl
      refine ⟨f, rest.dropLast, t, ?_, hf1, hf2, ht1, ht2, hmid⟩
      conv_lhs => rw [← List.dropLast_append_getLast hne]
      rw [htl]
      rfl

/-- A slide fetched at an in-range index of an `EndsOk` list that is
unlocked must sit strictly between the endpoints (and belongs to the
interior). -/
theorem unlocked_interior {f t s : Slide} {m : List Slide} {idx : ℕ}
    (hf2 : f.locked = true) (ht2 : t.locked = true)
    (hs : (f :: m ++ [t]).get? idx = some s) (hsl : s.locked = false) :
    1 ≤ idx ∧ idx ≤ m.length ∧ s ∈ m := by
  match idx with
  | 0 =>
    have hfs : f = s := Option.some.inj hs
    rw [← hfs, hf2] at hsl
    cases hsl
  | (j+1) =>
    have hs' : (m ++ [t])[j]? = some s := by
      rw [← List.get?_eq_getElem?]; exact hs
    by_cases hj : j < m.length
    · rw [List.getElem?_append_left hj] at hs'
      exact ⟨Nat.succ_le_succ (Nat.zero_le j), Nat.succ_le_of_lt hj,
        List.getElem?_mem hs'⟩
    · rw [List.getElem?_append_right (Nat.le_of_not_lt hj)] at hs'
      have h0 : j - m.length = 0 := by
        by_contra hne0
        have hge : ([t] : List Slide).length ≤ j - m.length := by
          simp only [List.length_singleton]; omega
        rw [List.getElem?_eq_none hge] at hs'
        cases hs'
      rw [h0] at hs'
      have hts : t = s := by simpa using hs'
      rw [← hts, ht2] at hsl
      cases hsl

/-- An element fetched strictly inside the interior belongs to `m`. -/
theorem get_mid_mem {f t s : Slide} {m : List Slide} {i : ℕ}
    (h1 : 1 ≤ i) (h2 : i ≤ m.length)
    (hs : (f :: m ++ [t]).get? i = some s) : s ∈ m := by
  obtain ⟨j, rfl⟩ : ∃ j, i = j + 1 :=
    ⟨i - 1, (Nat.succ_pred_eq_of_pos h1).symm⟩
  have hs' : (m ++ [t])[j]? = some s := by
    rw [← List.get?_eq_getElem?]; exact hs
  rw [List.getElem?_append_left (Nat.lt_of_succ_le h2)] at hs'
  exact List.getElem?_mem hs'

/-- Setting an interior position keeps the cover/cta endpoints. -/
theorem set_interior {f t x : Slide} {m : List Slide} {i : ℕ}
    (h1 : 1 ≤ i) (h2 : i ≤ m.length) :
    (f :: m ++ [t]).set i x = f :: m.set (i - 1) x ++ [t] := by
  obtain ⟨j, rfl⟩ : ∃ j, i = j + 1 :=
    ⟨i - 1, (Nat.succ_pred_eq_of_pos h1).symm⟩
  show f :: (m ++ [t]).set j x = f :: m.set (j + 1 - 1) x ++ [t]
  rw [List.set_append]
  simp [Nat.lt_of_succ_le h2]

theorem addSlide_preserves {l : List Slide} (afterIdx : ℕ) (h : EndsOk l)
    (hv : afterIdx + 2 ≤ l.length) : EndsOk (addSlide l afterIdx) := by
  obtain ⟨f, m, t, rfl, hf1, hf2, ht1, ht2, hm⟩ := h
  unfold addSlide
  by_cases h12 : 12 ≤ (f :: m ++ [t]).length
  · rw [if_pos h12]; exact ⟨f, m, t, rfl, hf1, hf2, ht1, ht2, hm⟩
  · rw [if_neg h12]
    have hlen : (f :: m ++ [t]).length = m.length + 2 := by simp
    have hk : afterIdx ≤ m.length := by rw [hlen] at hv; omega
    show EndsOk (f :: ((m ++ [t]).take afterIdx ++
      ⟨"single", false, "", []⟩ :: (m ++ [t]).drop afterIdx))
    rw [List.take_append_of_le_length hk, List.drop_append_of_le_length hk]
    refine ⟨f, m.take afterIdx ++ ⟨"single", false, "", []⟩ ::
      m.drop afterIdx, t, by simp, hf1, hf2, ht1, ht2, ?_⟩
    intro s hs
    rcases List.mem_append.mp hs with hs' | hs'
    · exact hm s (List.take_subset afterIdx m hs')
    · rcases List.mem_cons.mp hs' with rfl | hs''
      · rfl
      · exact hm s (List.drop_subset afterIdx m hs'')

theorem removeSlide_preserves {l : List Slide} (idx : ℕ)
    (h : EndsOk l) : EndsOk (removeSlide l idx) := by
  obtain ⟨f, m, t, rfl, hf1, hf2, ht1, ht2, hm⟩ := h
  unfold removeSlide
  by_cases h6 : (f :: m ++ [t]).length ≤ 6
  · rw [if_pos h6]; exact ⟨f, m, t, rfl, hf1, hf2, ht1, ht2, hm⟩
  · rw [if_neg h6]
    rcases hg : (f :: m ++ [t]).get? idx with _ | s
    · simp only [hg]
      exact ⟨f, m, t, rfl, hf1, hf2, ht1, ht2, hm⟩
    · simp only [hg]
      by_cases hsl : s.locked = true
      · rw [if_pos hsl]; exact ⟨f, m, t, rfl, hf1, hf2, ht1, ht2, hm⟩
      · rw [if_neg hsl]
        obtain ⟨h1, h2, _⟩ :=
          unlocked_interior hf2 ht2 hg (by simpa using hsl)
        obtain ⟨j, rfl⟩ : ∃ j, idx = j + 1 :=
          ⟨idx - 1, (Nat.succ_pred_eq_of_pos h1).symm⟩
        show EndsOk (f :: ((m ++ [t]).take j ++ (m ++ [t]).drop (j + 1)))
        rw [List.take_append_of_le_length (Nat.le_of_succ_le h2),
          List.drop_append_of_le_length h2]
        refine ⟨f, m.take j ++ m.drop (j + 1), t, by simp, hf1, hf2,
          ht1, ht2, ?_⟩
        intro s' hs'
        rcases List.mem_append.mp hs' with hs'' | hs''
        · exact hm s' (List.take_subset j m hs'')
        · exact hm s' (List.drop_subset (j + 1) m hs'')

theorem moveSlide_preserves {l : List Slide} (idx : ℕ) (dir : ℤ)
    (h : EndsOk l) : EndsOk (moveSlide l idx dir) := by
  obtain ⟨f, m, t, rfl, hf1, hf2, ht1, ht2, hm⟩ := h
  unfold moveSlide
  by_cases hguard : (idx : ℤ) + dir ≤ 0 ∨
      ((f :: m ++ [t]).length : ℤ) - 1 ≤ (idx : ℤ) + dir
  · rw [if_pos hguard]; exact ⟨f, m, t, rfl, hf1, hf2, ht1, ht2, hm⟩
  · rw [if_neg hguard]
    push_neg at hguard
    obtain ⟨hg1, hg2⟩ := hguard
    rcases hgi : (f :: m ++ [t]).get? idx with _ | si
    · simp only [hgi]
      exact ⟨f, m, t, rfl, hf1, hf2, ht1, ht2, hm⟩
    · simp only [hgi]
      by_cases hsl : si.locked = true
      · rw [if_pos hsl]; exact ⟨f, m, t, rfl, hf1, hf2, ht1, ht2, hm⟩
      · rw [if_neg hsl]
        obtain ⟨hi1, hi2, hsim⟩ :=
          unlocked_interior hf2 ht2 hgi (by simpa using hsl)
        have hlen : (f :: m ++ [t]).length = m.length + 2 := by
          simp
        have htgt1 : 1 ≤ ((idx : ℤ) + dir).toNat := by omega
        have htgt2 : ((idx : ℤ) + dir).toNat ≤ m.length := by omega
        rcases hgt : (f :: m ++ [t]).get? ((idx : ℤ) + dir).toNat
          with _ | st
        · simp only [hgt]
          exact ⟨f, m, t, rfl, hf1, hf2, ht1, ht2, hm⟩
        · simp only [hgt]
          have hstm : st ∈ m := get_mid_mem htgt1 htgt2 hgt
          rw [set_interior hi1 hi2]
          rw [set_interior (f := f) (t := t) htgt1
            (by simpa using htgt2)]
          refine ⟨f, (m.set (idx - 1) st).set
            (((idx : ℤ) + dir).toNat - 1) si, t, rfl,
            hf1, hf2, ht1, ht2, ?_⟩
          intro s' hs'
          rcases List.mem_or_eq_of_mem_set hs' with hs'' | rfl
          · rcases List.mem_or_eq_of_mem_set hs'' with hs''' | rfl
            · exact hm s' hs'''
            · exact hm _ hstm
          · simpa using hsl

theorem changeTemplate_preserves {l : List Slide} (idx : ℕ) (newT : String)
    (h : EndsOk l) (hv : validOp l (.change idx newT) = true) :
    EndsOk (changeTemplate l idx newT) := by
  obtain ⟨f, m, t, rfl, hf1, hf2, ht1, ht2, hm⟩ := h
  rcases hg : (f :: m ++ [t]).get? idx with _ | s
  · simp only [changeTemplate, hg]
    exact ⟨f, m, t, rfl, hf1, hf2, ht1, ht2, hm⟩
  · simp only [changeTemplate, hg]
    have hsl : s.locked = false := by
      simp only [validOp, hg, Bool.not_eq_true'] at hv
      exact hv
    obtain ⟨h1, h2, _⟩ := unlocked_interior hf2 ht2 hg hsl
    rw [set_interior h1 h2]
    refine ⟨f, m.set (idx - 1) { s with template := newT, data := [] }, t,
      rfl, hf1, hf2, ht1, ht2, ?_⟩
    intro s' hs'
    rcases List.mem_or_eq_of_mem_set hs' with hs'' | rfl
    · exact hm s' hs''
    · exact hsl

theorem applyOp_preserves {l : List Slide} {op : EditorOp} (h : EndsOk l)
    (hv : validOp l op = true) : EndsOk (applyOp l op) := by
  cases op with
  | add i =>
    refine addSlide_preserves i h ?_
    simpa [validOp] using hv
  | remove i => exact removeSlide_preserves i h
  | move i d => exact moveSlide_preserves i d h
  | change i tpl => exact changeTemplate_preserves i tpl h hv

theorem applyOps_preserves :
    ∀ (ops : List EditorOp) (l : List Slide), EndsOk l →
      validSeq l ops = true → EndsOk (applyOps l ops) := by
  intro ops
  induction ops with
  | nil => intro l h _; exact h
  | cons op ops ih =>
    intro l h hv
    rw [validSeq, Bool.and_eq_true] at hv
    exact ih (applyOp l op) (applyOp_preserves h hv.1) hv.2

theorem endsOk_of_initial {l : List Slide} (h : l ∈ initialCarousels) :
    EndsOk l := by
  apply endsOk_of_endsOkB
  fin_cases h <;> decide

/-- C4 counterexample: `changeTemplate` has no internal lock guard, so
applying it at position 0 of the custom skeleton replaces the cover
template — position 0 no longer holds the cover template. -/
theorem slide_endpoints_counterexample :
    (applyOps initCustom [EditorOp.change 0 "single"]).head?.map
      (fun s => s.template) ≠ some "cover" := by
  decide

/-- C4 amended: starting from the custom skeleton or any sequence
blueprint, after any sequence of `addSlide`, `removeSlide`, `moveSlide`
and `changeTemplate` in which — as the editor's UI guarantees — every
`addSlide` inserts before the final position and every `changeTemplate`
targets an unlocked slide, position 0 still holds the cover template and
the final position still holds the cta template. -/
theorem slide_endpoints_invariant (init : List Slide)
    (hinit : init ∈ initialCarousels) (ops : List EditorOp)
    (hv : validSeq init ops = true) :
    (applyOps init ops).head?.map (fun s => s.template) = some "cover" ∧
    (applyOps init ops).getLast?.map (fun s => s.template) = some "cta" := by
  obtain ⟨f, m, t, heq, hf1, _, ht1, _, _⟩ :=
    applyOps_preserves ops init (endsOk_of_initial hinit) hv
  rw [heq]
  constructor
  · simp [hf1]
  · rw [show f :: m ++ [t] = (f :: m) ++ [t] from rfl,
      List.getLast?_concat]
    simp [ht1]

/-- Closed witness for `slide_endpoints_invariant`: from the custom
skeleton, add a slide, retemplate it, move it, then remove one. -/
theorem slide_endpoints_invariant_witness :
    (applyOps initCustom
        [EditorOp.add 0, EditorOp.change 1 "quote",
         EditorOp.move 1 1, EditorOp.remove 1]).head?.map
      (fun s => s.template) = some "cover" ∧
    (applyOps initCustom
        [EditorOp.add 0, EditorOp.change 1 "quote",
         EditorOp.move 1 1, EditorOp.remove 1]).getLast?.map
      (fun s => s.template) = some "cta" :=
  slide_endpoints_invariant initCustom (by decide)
    [EditorOp.add 0, EditorOp.change 1 "quote",
     EditorOp.move 1 1, EditorOp.remove 1] (by decide)

/-- C10: `changeTemplate` at an in-range index resets the slide's
field-value record to the empty record, installs the new template,
keeps the slide's lock flag and annotation, keeps the list length, and
leaves every other slide untouched. -/
theorem changeTemplate_frame (slides : List Slide) (idx : ℕ)
    (newT : String) (h : idx < slides.length) :
    ((changeTemplate slides idx newT).get? idx).map
        (fun s => s.template) = some newT ∧
    ((changeTemplate slides idx newT).get? idx).map
        (fun s => s.data) = some [] ∧
    ((changeTemplate slides idx newT).get? idx).map (fun s => s.locked) =
      (slides.get? idx).map (fun s => s.locked) ∧
    ((changeTemplate slides idx newT).get? idx).map (fun s => s.note) =
      (slides.get? idx).map (fun s => s.note) ∧
    (changeTemplate slides idx newT).length = slides.length ∧
    ∀ j, j ≠ idx → (changeTemplate slides idx newT).get? j =
      slides.get? j := by
  rcases hg : slides.get? idx with _ | s
  · rw [List.get?_eq_getElem?, List.getElem?_eq_none_iff] at hg
    omega
  · have hset : ∀ x : Slide, (slides.set idx x).get? idx = some x := by
      intro x
      rw [List.get?_eq_getElem?]
      simp [List.getElem?_set_self, h]
    have hother : ∀ (x : Slide) (j : ℕ), j ≠ idx →
        (slides.set idx x).get? j = slides.get? j := by
      intro x j hj
      rw [List.get?_eq_getElem?, List.get?_eq_getElem?]
      exact List.getElem?_set_ne (fun hh => hj hh.symm)
    simp only [changeTemplate, hg]
    refine ⟨?_, ?_, ?_, ?_, by simp, fun j hj => hother _ j hj⟩ <;>
      rw [hset] <;> simp [hg]

/-- Closed witness for `changeTemplate_frame` on the custom skeleton. -/
theorem changeTemplate_frame_witness :
    ((changeTemplate initCustom 1 "quote").get? 1).map
        (fun s => s.template) = some "quote" ∧
    ((changeTemplate initCustom 1 "quote").get? 1).map
        (fun s => s.data) = some [] ∧
    ((changeTemplate initCustom 1 "quote").get? 1).map
        (fun s => s.locked) = (initCustom.get? 1).map (fun s => s.locked) ∧
    ((changeTemplate initCustom 1 "quote").get? 1).map
        (fun s => s.note) = (initCustom.get? 1).map (fun s => s.note) ∧
    (changeTemplate initCustom 1 "quote").length = initCustom.length ∧
    ∀ j, j ≠ 1 → (changeTemplate initCustom 1 "quote").get? j =
      initCustom.get? j :=
  changeTemplate_frame initCustom 1 "quote" (by decide)

/-- C5: a carousel is exportable iff its slide count lies in `[6, 12]`;
in particular 5 and 13 slides are rejected, 6 and 12 accepted. -/
theorem export_gate :
    (∀ len : ℕ, exportEnabled false len = true ↔ 6 ≤ len ∧ len ≤ 12) ∧
    exportEnabled false 5 = false ∧ exportEnabled false 6 = true ∧
    exportEnabled false 13 = false ∧ exportEnabled false 12 = true := by
  refine ⟨?_, by decide, by decide, by decide, by decide⟩
  intro len
  simp only [exportEnabled, Bool.false_or, Bool.not_eq_true',
    Bool.or_eq_false_iff, decide_eq_false_iff_not, not_lt]

theorem flowPlaceRow_rowOk :
    ∀ (items : List (String × ℚ)) (startX rowY : ℚ),
      RowOk (flowPlaceRow items startX rowY).1
        (flowPlaceRow items startX rowY).2 items startX rowY := by
  intro items
  induction items with
  | nil =>
    intro startX rowY
    refine ⟨rfl, ?_, ?_, rfl, ?_⟩
    · intro b hb; exact absurd hb (List.not_mem_nil b)
    · intro i b hb; cases i <;> cases hb
    · intro i a ha; cases i <;> cases ha
  | cons hd rest ih =>
    intro startX rowY
    obtain ⟨l, w⟩ := hd
    obtain ⟨ih1, ih2, ih3, ih4, ih5⟩ := ih (startX + w + 36) rowY
    have hblen :
        (flowPlaceRow rest (startX + w + 36) rowY).1.length =
          rest.length := by
      rw [← List.length_map
        (f := fun b : FlowBox => (b.label, b.w)), ih1]
    refine ⟨?_, ?_, ?_, ?_, ?_⟩
    · exact congrArg (List.cons (l, w)) ih1
    · intro b hb
      rcases List.mem_cons.mp hb with rfl | hb'
      · rfl
      · exact ih2 b hb'
    · intro i b hb
      match i with
      | 0 =>
        have hbx : (⟨startX, rowY, w, l⟩ : FlowBox) = b :=
          Option.some.inj hb
        rw [← hbx]
        show startX = startX + (([] : List ℚ)).sum + 36 * ((0 : ℕ) : ℚ)
        simp
      | (j+1) =>
        have hb' : (flowPlaceRow rest (startX + w + 36) rowY).1.get? j =
            some b := hb
        have hx := ih3 j b hb'
        rw [hx]
        show startX + w + 36 +
            (List.map Prod.snd (List.take j rest)).sum + 36 * (j : ℚ) =
          startX + (w + (List.map Prod.snd (List.take j rest)).sum) +
            36 * ((j + 1 : ℕ) : ℚ)
        push_cast
        ring
    · by_cases hr : rest = []
      · subst hr
        rfl
      · have hars : (flowPlaceRow ((l, w) :: rest) startX rowY).2 =
            ⟨startX + w + 4, rowY + 32⟩ ::
              (flowPlaceRow rest (startX + w + 36) rowY).2 := by
          simp only [flowPlaceRow]
          rw [if_neg hr]
        rw [hars, List.length_cons, ih4]
        show _ = (⟨startX, rowY, w, l⟩ :: _).length - 1
        rw [List.length_cons, hblen]
        have hne : rest.length ≠ 0 :=
          fun h0 => hr (List.length_eq_zero.mp h0)
        omega
    · intro i a ha
      by_cases hr : rest = []
      · subst hr
        rw [show (flowPlaceRow ((l, w) :: []) startX rowY).2 =
          ([] : List FlowArrow) from rfl] at ha
        cases i <;> cases ha
      · have hars : (flowPlaceRow ((l, w) :: rest) startX rowY).2 =
            ⟨startX + w + 4, rowY + 32⟩ ::
              (flowPlaceRow rest (startX + w + 36) rowY).2 := by
          simp only [flowPlaceRow]
          rw [if_neg hr]
        rw [hars] at ha
        match i with
        | 0 =>
          have hax : (⟨startX + w + 4, rowY + 32⟩ : FlowArrow) = a :=
            Option.some.inj ha
          exact ⟨⟨startX, rowY, w, l⟩, rfl, by rw [← hax], by rw [← hax]⟩
        | (j+1) =>
          have ha' : (flowPlaceRow rest (startX + w + 36) rowY).2.get? j =
              some a := ha
          obtain ⟨b, hbg, hx, hy⟩ := ih5 j a ha'
          exact ⟨b, hbg, hx, hy⟩

/-- C2: with `n ≥ 1` labels, if the total single-row width (measured box
widths plus `(n-1)` arrow gaps) is at most the content width 840, the
flow layout is exactly one row of all `n` boxes, centered on the content
midline `x = 596`; otherwise exactly two rows of `ceil(n/2)` and
`floor(n/2)` boxes (first labels on top, in order), each row
independently centered on the midline, with an arrowhead between each
pair of consecutive boxes in a row. -/
theorem framework_flow_rows_spec (cw : Char → ℕ) (labels : List String)
    (cap : Bool) (hn : 1 ≤ labels.length) :
    (rowTot (labels.zip (flowBoxWidths cw labels)) ≤ 840 →
      ∃ boxes ars,
        frameworkFlowRows cw labels cap = [(boxes, ars)] ∧
        boxes.length = labels.length ∧
        RowOk boxes ars (labels.zip (flowBoxWidths cw labels))
          (596 - rowTot (labels.zip (flowBoxWidths cw labels)) / 2)
          (flowCy cap - 32)) ∧
    (840 < rowTot (labels.zip (flowBoxWidths cw labels)) →
      ∃ b1 a1 b2 a2,
        frameworkFlowRows cw labels cap = [(b1, a1), (b2, a2)] ∧
        b1.length = (labels.length + 1) / 2 ∧
        b2.length = labels.length - (labels.length + 1) / 2 ∧
        RowOk b1 a1
          ((labels.zip (flowBoxWidths cw labels)).take
            ((labels.length + 1) / 2))
          (596 - rowTot ((labels.zip (flowBoxWidths cw labels)).take
            ((labels.length + 1) / 2)) / 2)
          (flowCy cap - 50) ∧
        RowOk b2 a2
          ((labels.zip (flowBoxWidths cw labels)).drop
            ((labels.length + 1) / 2))
          (596 - rowTot ((labels.zip (flowBoxWidths cw labels)).drop
            ((labels.length + 1) / 2)) / 2)
          (flowCy cap - 50 + 104)) := by
  have hzlen : (labels.zip (flowBoxWidths cw labels)).length =
      labels.length := by
    simp [flowBoxWidths]
  have hlenOf : ∀ (its : List (String × ℚ)) (sx ry : ℚ),
      (flowPlaceRow its sx ry).1.length = its.length := by
    intro its sx ry
    have h := (flowPlaceRow_rowOk its sx ry).1
    rw [← List.length_map (f := fun b : FlowBox => (b.label, b.w)), h]
  constructor
  · intro hfit
    refine ⟨_, _, ?_, ?_, flowPlaceRow_rowOk _ _ _⟩
    · simp only [frameworkFlowRows]
      rw [if_pos hfit]
    · rw [hlenOf, hzlen]
  · intro hbig
    refine ⟨_, _, _, _, ?_, ?_, ?_, flowPlaceRow_rowOk _ _ _,
      flowPlaceRow_rowOk _ _ _⟩
    · simp only [frameworkFlowRows]
      rw [if_neg (not_le_of_gt hbig)]
    · rw [hlenOf, List.length_take, hzlen]
      omega
    · rw [hlenOf, List.length_drop, hzlen]

/-- Closed witness for `framework_flow_rows_spec` with two unit-width
labels. -/
theorem framework_flow_rows_spec_witness :
    (rowTot (["a", "b"].zip (flowBoxWidths (fun _ => 1) ["a", "b"])) ≤ 840 →
      ∃ boxes ars,
        frameworkFlowRows (fun _ => 1) ["a", "b"] false = [(boxes, ars)] ∧
        boxes.length = (["a", "b"] : List String).length ∧
        RowOk boxes ars
          (["a", "b"].zip (flowBoxWidths (fun _ => 1) ["a", "b"]))
          (596 - rowTot
            (["a", "b"].zip (flowBoxWidths (fun _ => 1) ["a", "b"])) / 2)
          (flowCy false - 32)) ∧
    (840 < rowTot (["a", "b"].zip (flowBoxWidths (fun _ => 1) ["a", "b"])) →
      ∃ b1 a1 b2 a2,
        frameworkFlowRows (fun _ => 1) ["a", "b"] false =
          [(b1, a1), (b2, a2)] ∧
        b1.length = ((["a", "b"] : List String).length + 1) / 2 ∧
        b2.length = (["a", "b"] : List String).length -
          ((["a", "b"] : List String).length + 1) / 2 ∧
        RowOk b1 a1
          ((["a", "b"].zip (flowBoxWidths (fun _ => 1) ["a", "b"])).take
            (((["a", "b"] : List String).length + 1) / 2))
          (596 - rowTot
            ((["a", "b"].zip (flowBoxWidths (fun _ => 1) ["a", "b"])).take
              (((["a", "b"] : List String).length + 1) / 2)) / 2)
          (flowCy false - 50) ∧
        RowOk b2 a2
          ((["a", "b"].zip (flowBoxWidths (fun _ => 1) ["a", "b"])).drop
            (((["a", "b"] : List String).length + 1) / 2))
          (596 - rowTot
            ((["a", "b"].zip (flowBoxWidths (fun _ => 1) ["a", "b"])).drop
              (((["a", "b"] : List String).length + 1) / 2)) / 2)
          (flowCy false - 50 + 104)) :=
  framework_flow_rows_spec (fun _ => 1) ["a", "b"] false (by decide)

/-- C7: with `n ≥ 1` labels the cycle layout (over `ℝ`, with `π` and any
cosine/sine) has one node per label; node `i`'s center lies on the ring
at the angle `(-90 + (i/n)·360)` degrees converted to radians, measured
from the diagram center, and every node carries the one shared radius
`max(36, widest/2 + 16)`. -/
theorem framework_cycle_spec (cw : Char → ℕ) (labels : List String)
    (cap : Bool) (cosf sinf : ℝ → ℝ) (hn : 1 ≤ labels.length) :
    (cycleNodes ℝ cw labels cap Real.pi cosf sinf).length =
      labels.length ∧
    (∀ node ∈ cycleNodes ℝ cw labels cap Real.pi cosf sinf,
      node.r = cycleNodeRadius cw labels) ∧
    ∀ i node,
      (cycleNodes ℝ cw labels cap Real.pi cosf sinf).get? i = some node →
      node.x = 596 + cosf ((((-90 : ℝ) +
          (i : ℝ) / (labels.length : ℝ) * 360)) * (Real.pi / 180)) *
          ((cycleRingRadius cap : ℚ) : ℝ) ∧
      node.y = ((flowCy cap : ℚ) : ℝ) + sinf ((((-90 : ℝ) +
          (i : ℝ) / (labels.length : ℝ) * 360)) * (Real.pi / 180)) *
          ((cycleRingRadius cap : ℚ) : ℝ) := by
  have hangle : ∀ i : ℕ,
      -(Real.pi / 2) + ((i : ℕ) : ℝ) / ((labels.length : ℕ) : ℝ) *
        (Real.pi * 2) =
      (((-90 : ℝ) + (i : ℝ) / (labels.length : ℝ) * 360)) *
        (Real.pi / 180) := by
    intro i
    ring
  refine ⟨?_, ?_, ?_⟩
  · show (List.map _ (List.range labels.length)).length = labels.length
    rw [List.length_map, List.length_range]
  · intro node hnode
    simp only [cycleNodes, List.mem_map] at hnode
    obtain ⟨i, _, rfl⟩ := hnode
    rfl
  · intro i node hnode
    simp only [cycleNodes, List.get?_eq_getElem?, List.getElem?_map]
      at hnode
    rcases hri : (List.range labels.length)[i]? with _ | j
    · rw [hri] at hnode; cases hnode
    · rw [hri] at hnode
      have hj : j = i := by
        have hi : i < labels.length := by
          by_contra hge
          rw [List.getElem?_eq_none (by simpa using hge)] at hri
          cases hri
        have hr := List.getElem?_range hi
        rw [hri] at hr
        exact Option.some.inj hr
      subst hj
      have hnode' := Option.some.inj hnode
      rw [← hnode', ← hangle j]
      exact ⟨rfl, rfl⟩

/-- Closed witness for `framework_cycle_spec` at three labels. -/
theorem framework_cycle_spec_witness :
    (cycleNodes ℝ (fun _ => 1) ["a", "b", "c"] false Real.pi (fun _ => 0)
        (fun _ => 0)).length = (["a", "b", "c"] : List String).length ∧
    (∀ node ∈ cycleNodes ℝ (fun _ => 1) ["a", "b", "c"] false Real.pi
        (fun _ => 0) (fun _ => 0),
      node.r = cycleNodeRadius (fun _ => 1) ["a", "b", "c"]) ∧
    ∀ i node,
      (cycleNodes ℝ (fun _ => 1) ["a", "b", "c"] false Real.pi
        (fun _ => 0) (fun _ => 0)).get? i = some node →
      node.x = 596 + (fun _ => (0 : ℝ)) ((((-90 : ℝ) +
          (i : ℝ) / ((["a", "b", "c"] : List String).length : ℝ) * 360)) *
          (Real.pi / 180)) * ((cycleRingRadius false : ℚ) : ℝ) ∧
      node.y = ((flowCy false : ℚ) : ℝ) + (fun _ => (0 : ℝ)) ((((-90 : ℝ) +
          (i : ℝ) / ((["a", "b", "c"] : List String).length : ℝ) * 360)) *
          (Real.pi / 180)) * ((cycleRingRadius false : ℚ) : ℝ) :=
  framework_cycle_spec (fun _ => 1) ["a", "b", "c"] false
    (fun _ => 0) (fun _ => 0) (by decide)

section

variable (K : Type) [Field K]

/-- The ops a render emits depend on the entry context only through the
inheritable projection `aproj`. -/
theorem renderT_ops_congr (t : Template) (cwf : String → Char → ℕ)
    (d : Data) (num : Option ℕ) (piv : K) (cosf sinf : K → K)
    (c₁ c₂ : Ctx) (h : c₁.aproj = c₂.aproj) :
    (renderT K t cwf d num piv cosf sinf c₁).1 =
    (renderT K t cwf d num piv cosf sinf c₂).1 := by
  cases t <;> simp only [renderT] <;> rw [h]

/-- Every renderer restores the inheritable components on exit: the exit
state's `aproj` equals the entry state's. -/
theorem renderT_exit_aproj (t : Template) (cwf : String → Char → ℕ)
    (d : Data) (num : Option ℕ) (piv : K) (cosf sinf : K → K) (c : Ctx)
    (h : c.aproj = defaultAProj) :
    ((renderT K t cwf d num piv cosf sinf c).2).aproj = defaultAProj := by
  have ha : c.textAlign = "start" := congrArg AProj.align h
  have hl : c.letterSpacing = "0px" := congrArg AProj.lspace h
  cases t with
  | comparison =>
    show (comparisonExit d c).aproj = defaultAProj
    rw [← h]
    simp [comparisonExit, Ctx.aproj, ha]
  | section_divider =>
    show (sectionDividerExit c).aproj = defaultAProj
    rw [← h]
    simp [sectionDividerExit, Ctx.aproj, hl]
  | blank =>
    show (blankExit d num c).aproj = defaultAProj
    rw [← h]
    unfold blankExit
    rcases num with _ | n
    · by_cases hc : dtruthy d "callout" <;>
        by_cases hh : dtruthy d "header" <;> simp [hc, hh, Ctx.aproj]
    · by_cases hc : dtruthy d "callout" <;>
        by_cases hh : dtruthy d "header" <;>
        by_cases hn : n = 0 <;> simp [hc, hh, hn, Ctx.aproj]
  | cover => exact h
  | single => exact h
  | framework => exact h
  | punchline => exact h
  | data =>
    show (dataExit d c).aproj = defaultAProj
    rw [← h]
    by_cases hs : dtruthy d "source" <;> simp [dataExit, hs, Ctx.aproj]
  | cta =>
    show (ctaExit d c).aproj = defaultAProj
    rw [← h]
    by_cases hs : dtruthy d "handle" <;> simp [ctaExit, hs, Ctx.aproj]
  | numbered_list =>
    show (numberedListExit d c).aproj = defaultAProj
    rw [← h]
    unfold numberedListExit
    rcases (numberedItems d).getLast? with _ | it <;> simp [Ctx.aproj]
  | quote =>
    show (quoteExit d c).aproj = defaultAProj
    rw [← h]
    by_cases hs : dtruthy d "attribution" <;>
      simp [quoteExit, hs, Ctx.aproj]
  | two_up => exact h
  | three_up => exact h
  | checklist => exact h

end

section

variable (K : Type) [LinearOrderedField K]

theorem paintOp_point (R : Raster K) (op : Op K) (p : K × K)
    (s₁ s₂ : K × K → String) (h : s₁ p = s₂ p) :
    paintOp K R s₁ op p = paintOp K R s₂ op p := by
  simp [paintOp, h]

theorem paintOps_point (R : Raster K) (ops : List (Op K)) :
    ∀ (s₁ s₂ : K × K → String) (p : K × K), s₁ p = s₂ p →
      paintOps K R s₁ ops p = paintOps K R s₂ ops p := by
  induction ops with
  | nil => intro s₁ s₂ p h; exact h
  | cons op ops ih =>
    intro s₁ s₂ p h
    exact ih (paintOp K R s₁ op) (paintOp K R s₂ op) p
      (paintOp_point K R op p s₁ s₂ h)

/-- After an opaque full-canvas fill, the surface below is forgotten on
the canvas. -/
theorem agree_of_head_full (R : Raster K) (st : String)
    (rest : List (Op K)) (s₁ s₂ : K × K → String) (p : K × K)
    (hp : OnCanvas K p) :
    paintOps K R s₁ (Op.fillRect 0 0 1080 1080 st 1 :: rest) p =
    paintOps K R s₂ (Op.fillRect 0 0 1080 1080 st 1 :: rest) p := by
  obtain ⟨h1, h2, h3, h4⟩ := hp
  show paintOps K R (paintOp K R s₁ (Op.fillRect 0 0 1080 1080 st 1))
      rest p =
    paintOps K R (paintOp K R s₂ (Op.fillRect 0 0 1080 1080 st 1)) rest p
  refine paintOps_point K R rest _ _ p ?_
  have hc := R.fr_covers 0 0 1080 1080 st p h1 (by linarith) h3
    (by linarith)
  simp [paintOp, hc, R.fr_opaque]

/-- The cover template's three opaque bands tile the full canvas width,
so they likewise forget the surface below. -/
theorem agree_of_cover_bands (R : Raster K) (rest : List (Op K))
    (s₁ s₂ : K × K → String) (p : K × K) (hp : OnCanvas K p) :
    paintOps K R s₁ (Op.fillRect 0 0 280 1080 darkC 1 ::
      Op.fillRect 280 0 520 1080 paperC 1 ::
      Op.fillRect 800 0 280 1080 darkC 1 :: rest) p =
    paintOps K R s₂ (Op.fillRect 0 0 280 1080 darkC 1 ::
      Op.fillRect 280 0 520 1080 paperC 1 ::
      Op.fillRect 800 0 280 1080 darkC 1 :: rest) p := by
  obtain ⟨h1, h2, h3, h4⟩ := hp
  show paintOps K R (paintOp K R (paintOp K R (paintOp K R s₁
      (Op.fillRect 0 0 280 1080 darkC 1))
      (Op.fillRect 280 0 520 1080 paperC 1))
      (Op.fillRect 800 0 280 1080 darkC 1)) rest p =
    paintOps K R (paintOp K R (paintOp K R (paintOp K R s₂
      (Op.fillRect 0 0 280 1080 darkC 1))
      (Op.fillRect 280 0 520 1080 paperC 1))
      (Op.fillRect 800 0 280 1080 darkC 1)) rest p
  refine paintOps_point K R rest _ _ p ?_
  rcases lt_or_le p.1 280 with hx | hx
  · refine paintOp_point K R _ p _ _ ?_
    refine paintOp_point K R _ p _ _ ?_
    have hc := R.fr_covers 0 0 280 1080 darkC p h1 (by linarith) h3
      (by linarith)
    simp [paintOp, hc, R.fr_opaque]
  · rcases lt_or_le p.1 800 with hx2 | hx2
    · refine paintOp_point K R _ p _ _ ?_
      have hc2 := R.fr_covers 280 0 520 1080 paperC p hx (by linarith) h3
        (by linarith)
      simp [paintOp, hc2, R.fr_opaque]
    · have hc3 := R.fr_covers 800 0 280 1080 darkC p hx2 (by linarith) h3
        (by linarith)
      simp [paintOp, hc3, R.fr_opaque]

/-- The operation list of any render from a fresh context forgets the
surface below, on the whole canvas. -/
theorem renderT_first_agree (R : Raster K) (t : Template)
    (cwf : String → Char → ℕ) (d : Data) (num : Option ℕ) (piv : K)
    (cosf sinf : K → K) (s₁ s₂ : K × K → String) (p : K × K)
    (hp : OnCanvas K p) :
    paintOps K R s₁ (renderT K t cwf d num piv cosf sinf defaultCtx).1 p =
    paintOps K R s₂ (renderT K t cwf d num piv cosf sinf defaultCtx).1
      p := by
  cases t with
  | cover => exact agree_of_cover_bands K R _ s₁ s₂ p hp
  | single => exact agree_of_head_full K R paperC _ s₁ s₂ p hp
  | comparison => exact agree_of_head_full K R paperC _ s₁ s₂ p hp
  | framework => exact agree_of_head_full K R paperC _ s₁ s₂ p hp
  | punchline => exact agree_of_head_full K R paperC _ s₁ s₂ p hp
  | data => exact agree_of_head_full K R paperC _ s₁ s₂ p hp
  | cta => exact agree_of_head_full K R darkC _ s₁ s₂ p hp
  | numbered_list => exact agree_of_head_full K R paperC _ s₁ s₂ p hp
  | quote => exact agree_of_head_full K R paperC _ s₁ s₂ p hp
  | section_divider => exact agree_of_head_full K R paperC _ s₁ s₂ p hp
  | two_up => exact agree_of_head_full K R paperC _ s₁ s₂ p hp
  | three_up => exact agree_of_head_full K R paperC _ s₁ s₂ p hp
  | checklist => exact agree_of_head_full K R paperC _ s₁ s₂ p hp
  | blank => exact agree_of_head_full K R paperC _ s₁ s₂ p hp

/-- C9: for every template, field record and index, under any rasterizer
satisfying the `fillRect` facts, (a) a render from a fresh context
produces canvas contents independent of what was on the surface before —
each render call fully overwrites its surface — and (b) rendering a
second time in succession (from the context state the first render left
behind) leaves the canvas pixel-for-pixel as after the single render:
rendering twice equals rendering once. -/
theorem render_overwrites_and_idempotent (R : Raster K) (t : Template)
    (cwf : String → Char → ℕ) (d : Data) (num : Option ℕ) (piv : K)
    (cosf sinf : K → K) (s₁ s₂ : K × K → String) :
    (∀ p, OnCanvas K p →
      paintOps K R s₁
        (renderT K t cwf d num piv cosf sinf defaultCtx).1 p =
      paintOps K R s₂
        (renderT K t cwf d num piv cosf sinf defaultCtx).1 p) ∧
    (∀ p, OnCanvas K p →
      paintOps K R
        (paintOps K R s₁
          (renderT K t cwf d num piv cosf sinf defaultCtx).1)
        (renderT K t cwf d num piv cosf sinf
          (renderT K t cwf d num piv cosf sinf defaultCtx).2).1 p =
      paintOps K R s₁
        (renderT K t cwf d num piv cosf sinf defaultCtx).1 p) := by
  constructor
  · intro p hp
    exact renderT_first_agree K R t cwf d num piv cosf sinf s₁ s₂ p hp
  · intro p hp
    have hexit : ((renderT K t cwf d num piv cosf sinf defaultCtx).2).aproj
        = defaultCtx.aproj :=
      renderT_exit_aproj K t cwf d num piv cosf sinf defaultCtx rfl
    rw [renderT_ops_congr K t cwf d num piv cosf sinf _ defaultCtx hexit]
    exact renderT_first_agree K R t cwf d num piv cosf sinf _ s₁ p hp

end

/-- C8 counterexample: for the unregistered template identifier
`"testimonial"`, the registry lookup fails and the draw call silently
succeeds with a cleared, empty canvas — no failure signal of any kind is
produced (the render path returns a perfectly ordinary, empty operation
list). -/
theorem unknown_template_counterexample :
    renderersLookup "testimonial" = none ∧
    slideCanvasOps ℚ (fun _ _ => 1) "testimonial" (fun _ => none) none 0
      (fun _ => 0) (fun _ => 0) = [Op.clear 0 0 1080 1080] := by
  exact ⟨rfl, rfl⟩

/-- C8 amended: a render request with a template identifier outside the
14 registered templates is silently skipped: the guard on the registry
lookup fails, no renderer runs, and the surface is left cleared — the
engine silently succeeds rather than producing a failure signal. -/
theorem unknown_template_skipped (K : Type) [Field K]
    (cwf : String → Char → ℕ) (tid : String) (d : Data) (num : Option ℕ)
    (piv : K) (cosf sinf : K → K) (h : renderersLookup tid = none) :
    slideCanvasOps K cwf tid d num piv cosf sinf =
      [Op.clear 0 0 1080 1080] := by
  simp [slideCanvasOps, h]

/-- Closed witness for `unknown_template_skipped`. -/
theorem unknown_template_skipped_witness :
    slideCanvasOps ℚ (fun _ _ => 1) "testimonial" (fun _ => none) none 0
      (fun _ => 0) (fun _ => 0) = [Op.clear 0 0 1080 1080] :=
  unknown_template_skipped ℚ (fun _ _ => 1) "testimonial" (fun _ => none)
    none 0 (fun _ => 0) (fun _ => 0) (by rfl)

end TightMargins
